import Mathlib

/-!
Verification development for the smart-theming-engine core: a shallow
embedding, in Lean 4, of the engine's numeric analysis functions and
rule-based design-decision pipeline, together with theorems settling the
frozen specification claims.  Machine floats of the original code are
modelled as exact rationals (or reals where transcendental functions
appear); fallible code paths are modelled with Except.
-/

namespace STE

/-- Truncation toward zero, the semantics of the host language int() cast. -/
def pyTrunc (q : ℚ) : ℤ :=
  if 0 ≤ q then ⌊q⌋ else -⌊-q⌋

/-- Banker's rounding (round half to even), the semantics of the host
language round() builtin, on rationals. -/
def pyRoundQ (q : ℚ) : ℤ :=
  if Int.fract q = 1/2 then (if Even ⌊q⌋ then ⌊q⌋ else ⌊q⌋ + 1) else round q

/-- Rounding to two decimal places, the semantics of round(x, 2). -/
def pyRound2Q (q : ℚ) : ℚ :=
  (pyRoundQ (q * 100) : ℚ) / 100

/-- JSON values as far as the brand-guideline parser inspects them: the
parser keeps string payloads and only ever tests the runtime type of
anything else, so non-string values are carried as bare tags. -/
inductive JVal where
  | jstr (s : String)
  | jnum
  | jbool
  | jnull
  | jarr
  | jobj
deriving DecidableEq

/-- Dictionary lookup on the decoded JSON object (keys are unique in a
JSON object, so first-match lookup is dictionary lookup). -/
def lookupKey (g : List (String × JVal)) (k : String) : Option JVal :=
  (g.find? (fun kv => kv.1 = k)).map (fun kv => kv.2)

/-- Validation of one color key of parse_brand_guidelines: kept when the
value is a string that starts with a hash and has length 7 or 4. -/
def keepColor (g : List (String × JVal)) (k : String) : List (String × String) :=
  match lookupKey g k with
  | some (JVal.jstr s) =>
      if s.startsWith "#" && (s.length == 7 || s.length == 4) then [(k, s)] else []
  | _ => []

/-- Validation of one font key of parse_brand_guidelines: kept when the
value is a non-empty string. -/
def keepFont (g : List (String × JVal)) (k : String) : List (String × String) :=
  match lookupKey g k with
  | some (JVal.jstr s) => if s ≠ "" then [(k, s)] else []
  | _ => []

/-- Validation of the layoutPreference key of parse_brand_guidelines:
kept when the value is one of the four recognized strings. -/
def keepLayout (g : List (String × JVal)) : List (String × String) :=
  match lookupKey g "layoutPreference" with
  | some (JVal.jstr s) =>
      if s ∈ ["minimalist", "bold", "classic", "modern"] then [("layoutPreference", s)] else []
  | _ => []

/-- Embedding of parse_brand_guidelines (brand_guideline_parser.py,
lines 24 to 47): the validation of an already-decoded JSON object.  The
output dictionary is modelled as an association list in the insertion
order of the source loops; keys the loops never mention (including
designPrinciples) are never inserted. -/
def parse_brand_guidelines (g : List (String × JVal)) : List (String × String) :=
  keepColor g "primaryColor" ++ keepColor g "secondaryColor" ++ keepColor g "accentColor" ++
    keepFont g "headingFont" ++ keepFont g "bodyFont" ++ keepLayout g

/-- Embedding of colorsys.rgb_to_hls on normalized channels; returns
(hue, lightness, saturation), hue wrapped into the unit interval. -/
def rgb_to_hls (r g b : ℚ) : ℚ × ℚ × ℚ :=
  let maxc := max r (max g b)
  let minc := min r (min g b)
  let sumc := maxc + minc
  let rangec := maxc - minc
  let l := sumc / 2
  if minc = maxc then (0, l, 0)
  else
    let s := if l ≤ 1/2 then rangec / sumc else rangec / (2 - sumc)
    let rc := (maxc - r) / rangec
    let gc := (maxc - g) / rangec
    let bc := (maxc - b) / rangec
    let h := if r = maxc then bc - gc else if g = maxc then 2 + rc - bc else 4 + gc - rc
    (Int.fract (h / 6), l, s)

/-- Embedding of the helper _v of colorsys.hls_to_rgb. -/
def hlsValue (m1 m2 hue : ℚ) : ℚ :=
  let hue' := Int.fract hue
  if hue' < 1/6 then m1 + (m2 - m1) * hue' * 6
  else if hue' < 1/2 then m2
  else if hue' < 2/3 then m1 + (m2 - m1) * (2/3 - hue') * 6
  else m1

/-- Embedding of colorsys.hls_to_rgb on normalized channels. -/
def hls_to_rgb (h l s : ℚ) : ℚ × ℚ × ℚ :=
  if s = 0 then (l, l, l)
  else
    let m2 := if l ≤ 1/2 then l * (1 + s) else l + s - l * s
    let m1 := 2 * l - m2
    (hlsValue m1 m2 (h + 1/3), hlsValue m1 m2 h, hlsValue m1 m2 (h - 1/3))

/-- Character-level splitting on commas, the semantics of str.split used
on the comma-joined tag strings. -/
def splitCommaChars (l : List Char) : List (List Char) :=
  l.foldr (fun c acc =>
    if c = ',' then [] :: acc
    else match acc with
      | [] => [[c]]
      | h :: t => (c :: h) :: t) [[]]

/-- Embedding of str.split on a comma. -/
def pySplitComma (s : String) : List String :=
  (splitCommaChars s.data).map (fun l => String.mk l)

/-- Embedding of str.strip: removes leading and trailing whitespace. -/
def pyStrip (s : String) : String :=
  String.mk (((s.data.dropWhile Char.isWhitespace).reverse.dropWhile Char.isWhitespace).reverse)

/-- Tag tokens of a comma-joined tag string: split on commas, strip each
token, as the aggregation loops do. -/
def tagsOfString (s : String) : List String :=
  (pySplitComma s).map pyStrip

/-- Set insertion in first-seen order, the semantics of set.add observed
through membership. -/
def addTag (acc : List String) (t : String) : List String :=
  if t ∈ acc then acc else acc ++ [t]

/-- One per-image analysis record as consumed by the downstream
components (the dictionary produced by analyze_image); absent or null
fields are None. -/
structure AnalysisRecord where
  whitespace_percentage : Option ℚ := none
  symmetry_horizontal : Option ℚ := none
  symmetry_vertical : Option ℚ := none
  fractal_dimension : Option ℚ := none
  entropy : Option ℚ := none
  visual_balance_score : Option ℚ := none
  aesthetic_score : Option ℚ := none
  golden_ratio_aspect_match : Bool := false
  mood_emotion : Option String := none
  typography_inference : Option String := none

/-- Embedding of the mood-tag union loop shared by generate_layout
(layout_generator.py, lines 72 to 78) and suggest_fonts: an image
contributes its comma-split tokens unless its mood string is absent,
empty, or exactly the sentinel string. -/
def aggregate_mood_tags (rs : List AnalysisRecord) : List String :=
  rs.foldl (fun acc a =>
    match a.mood_emotion with
    | some s => if s ≠ "" ∧ s ≠ "neutral" then (tagsOfString s).foldl addTag acc else acc
    | none => acc) []

/-- Embedding of the typography-tag union loop next to the mood loop,
with sentinel string unknown. -/
def aggregate_typography_tags (rs : List AnalysisRecord) : List String :=
  rs.foldl (fun acc a =>
    match a.typography_inference with
    | some s => if s ≠ "" ∧ s ≠ "unknown" then (tagsOfString s).foldl addTag acc else acc
    | none => acc) []

/-- Mean of a list with a default for the empty list, the shape of every
per-field aggregation in the engine. -/
def avgListOr (xs : List ℚ) (d : ℚ) : ℚ :=
  if xs = [] then d else xs.sum / xs.length

/-- Aggregated whitespace fraction: mean percentage over images carrying
the field, divided by 100; default one half. -/
def avg_whitespace (rs : List AnalysisRecord) : ℚ :=
  let xs := rs.filterMap (fun a => a.whitespace_percentage)
  if xs = [] then 1/2 else xs.sum / xs.length / 100

/-- Aggregated horizontal symmetry, default one half. -/
def avg_h_symmetry (rs : List AnalysisRecord) : ℚ :=
  avgListOr (rs.filterMap (fun a => a.symmetry_horizontal)) (1/2)

/-- Aggregated vertical symmetry, default one half. -/
def avg_v_symmetry (rs : List AnalysisRecord) : ℚ :=
  avgListOr (rs.filterMap (fun a => a.symmetry_vertical)) (1/2)

/-- Aggregated fractal dimension, default 1.5. -/
def avg_fractal_dimension (rs : List AnalysisRecord) : ℚ :=
  avgListOr (rs.filterMap (fun a => a.fractal_dimension)) (3/2)

/-- Aggregated entropy, default 4.0. -/
def avg_entropy (rs : List AnalysisRecord) : ℚ :=
  avgListOr (rs.filterMap (fun a => a.entropy)) 4

/-- Aggregated visual balance, default one half. -/
def avg_visual_balance (rs : List AnalysisRecord) : ℚ :=
  avgListOr (rs.filterMap (fun a => a.visual_balance_score)) (1/2)

/-- Aggregated aesthetic score, default 5. -/
def avg_aesthetic_score (rs : List AnalysisRecord) : ℚ :=
  avgListOr (rs.filterMap (fun a => a.aesthetic_score)) 5

/-- Brand guidelines as consumed by the downstream components: the six
recognized string keys, the designPrinciples list, and a record of any
further keys so that dictionary emptiness is modelled faithfully. -/
structure BrandGuidelines where
  primaryColor : Option String := none
  secondaryColor : Option String := none
  accentColor : Option String := none
  headingFont : Option String := none
  bodyFont : Option String := none
  layoutPreference : Option String := none
  designPrinciples : Option (List String) := none
  otherKeys : List String := []

/-- Truthiness of an optional string value: present and non-empty. -/
def truthyStr (o : Option String) : Bool :=
  match o with
  | some s => s ≠ ""
  | none => false

/-- Dictionary emptiness of a brand-guideline record. -/
def BrandGuidelines.isEmpty (bg : BrandGuidelines) : Bool :=
  bg.primaryColor.isNone && bg.secondaryColor.isNone && bg.accentColor.isNone &&
    bg.headingFont.isNone && bg.bodyFont.isNone && bg.layoutPreference.isNone &&
    bg.designPrinciples.isNone && bg.otherKeys.isEmpty

/-- One curated catalog entry of font_suggester.py. -/
structure FontPairing where
  heading : String
  body : String
  moods : List String
  styles : List String
  complexity : ℚ
  readability : ℚ

/-- Embedding of the FONT_PAIRINGS catalog (font_suggester.py, lines 11
to 32), in its stable source order. -/
def FONT_PAIRINGS : List FontPairing := [
  ⟨"Roboto", "Open Sans", ["modern", "professional", "calm", "balanced", "clean", "structured", "subtle"], ["sans-serif", "light", "geometric", "clean"], 0.2, 0.9⟩,
  ⟨"Playfair Display", "Lora", ["elegant", "calm", "professional", "balanced", "subtle", "structured"], ["serif", "light", "classic"], 0.4, 0.8⟩,
  ⟨"Montserrat", "Lato", ["vibrant", "modern", "playful", "energetic", "dynamic", "bold", "complex"], ["sans-serif", "bold", "geometric", "display"], 0.6, 0.7⟩,
  ⟨"Oswald", "Merriweather", ["bold", "professional", "modern", "dense", "structured", "complex"], ["sans-serif", "serif", "bold"], 0.7, 0.75⟩,
  ⟨"Pacifico", "Quicksand", ["playful", "creative", "vibrant", "dynamic", "organic", "expressive"], ["script", "sans-serif", "expressive"], 0.8, 0.6⟩,
  ⟨"Space Mono", "IBM Plex Sans", ["techy", "modern", "professional", "dense", "structured", "complex"], ["monospace", "sans-serif", "geometric"], 0.7, 0.8⟩,
  ⟨"Merriweather", "Open Sans", ["classic", "professional", "calm", "balanced", "subtle", "clean"], ["serif", "sans-serif", "light"], 0.3, 0.9⟩,
  ⟨"Lato", "Roboto", ["modern", "professional", "vibrant", "balanced", "clean", "structured"], ["sans-serif", "light"], 0.25, 0.85⟩,
  ⟨"Rubik", "Noto Sans", ["modern", "clean", "minimalist", "balanced", "structured", "subtle"], ["sans-serif", "geometric"], 0.3, 0.88⟩,
  ⟨"Source Code Pro", "Inter", ["techy", "modern", "professional", "dense", "structured", "complex"], ["monospace", "sans-serif"], 0.65, 0.82⟩,
  ⟨"Dancing Script", "Josefin Sans", ["elegant", "creative", "playful", "organic", "expressive"], ["script", "sans-serif", "expressive"], 0.9, 0.55⟩,
  ⟨"Bitter", "PT Sans", ["classic", "professional", "balanced", "structured"], ["serif", "sans-serif"], 0.45, 0.8⟩,
  ⟨"Nunito Sans", "Fira Sans", ["modern", "clean", "light", "minimalist", "subtle", "structured"], ["sans-serif", "light"], 0.2, 0.92⟩,
  ⟨"Anton", "Open Sans", ["bold", "energetic", "vibrant", "dynamic", "complex"], ["sans-serif", "bold", "display"], 0.85, 0.65⟩,
  ⟨"Comfortaa", "Muli", ["playful", "modern", "clean", "organic", "subtle"], ["sans-serif", "geometric", "light"], 0.35, 0.8⟩,
  ⟨"Fjalla One", "Roboto Condensed", ["bold", "dense", "energetic", "structured", "complex"], ["sans-serif", "bold"], 0.75, 0.7⟩,
  ⟨"Poppins", "Raleway", ["modern", "clean", "minimalist", "balanced", "structured"], ["sans-serif", "geometric", "light"], 0.3, 0.9⟩,
  ⟨"Lora", "Noto Serif", ["elegant", "classic", "calm", "balanced", "subtle"], ["serif", "classic"], 0.4, 0.85⟩,
  ⟨"Bebas Neue", "Montserrat", ["bold", "modern", "energetic", "dense", "complex"], ["sans-serif", "display", "bold"], 0.8, 0.68⟩,
  ⟨"Permanent Marker", "Indie Flower", ["creative", "playful", "expressive", "organic"], ["script", "display", "expressive"], 0.95, 0.5⟩]

/-- Embedding of the shared infer-if-absent branch of suggest_fonts
(font_suggester.py, lines 98 to 128) and generate_layout: synthesizes
layoutPreference and designPrinciples from the aggregated features. -/
def infer_guidelines (bg : BrandGuidelines) (moodTags typoTags : List String)
    (ws hsym vsym fd ent bal aes : ℚ) : BrandGuidelines :=
  let pref :=
    if "minimalist" ∈ moodTags ∨ ws > 0.75 then "minimalist"
    else if "dense" ∈ moodTags ∨ ws < 0.25 then "bold"
    else if "creative" ∈ moodTags ∨ "dynamic" ∈ moodTags ∨ ent > 6.5 then "modern"
    else "classic"
  let dps :=
    (if hsym > 0.85 ∧ vsym > 0.85 ∧ bal > 0.9 then ["structured"] else []) ++
    (if "creative" ∈ moodTags ∨ "dynamic" ∈ moodTags ∨ ent > 6 then ["organic"] else []) ++
    (if "bold" ∈ typoTags ∨ ws < 0.3 then ["bold"] else []) ++
    (if "light" ∈ typoTags ∨ ws > 0.7 then ["subtle"] else []) ++
    (if aes ≥ 8 ∧ fd < 1.3 then ["clean"] else []) ++
    (if fd > 1.7 ∨ ent > 7 then ["complex"] else [])
  { bg with layoutPreference := some pref, designPrinciples := some dps }

/-- Design-principle set extracted from active brand guidelines: each
entry stripped and lowercased, collected as a set. -/
def designPrinciplesOf (bg : BrandGuidelines) : List String :=
  ((bg.designPrinciples.getD []).map (fun p => (pyStrip p).toLower)).foldl addTag []

/-- Match score of one catalog pairing against the aggregated features
(font_suggester.py, lines 181 to 216). -/
def pairing_score (moodTags styleTags : List String) (ws hsym vsym fd ent bal aes : ℚ)
    (bgH bgB : Option String) (p : FontPairing) : ℚ :=
  let base := 2 * ((p.moods.filter (fun m => m ∈ moodTags)).length : ℚ) +
    1.5 * ((p.styles.filter (fun m => m ∈ styleTags)).length : ℚ)
  let b1 := if "clean" ∈ styleTags ∧ "geometric" ∈ p.styles ∧ fd < 1.3 then (2 : ℚ) else 0
  let b2 := if "complex" ∈ styleTags ∧ "expressive" ∈ p.styles ∧ ent > 6.5 then (2 : ℚ) else 0
  let b3 := if "structured" ∈ styleTags ∧ hsym > 0.7 ∧ vsym > 0.7 ∧ bal > 0.8 then (1.5 : ℚ) else 0
  let b4 := if "organic" ∈ styleTags ∧ (hsym < 0.6 ∨ vsym < 0.6) ∧ "dynamic" ∈ moodTags then (1.5 : ℚ) else 0
  let b5 := if aes ≥ 7 ∧ ("professional" ∈ p.moods ∨ "balanced" ∈ p.moods) then (1 : ℚ) else 0
  let b6 := if ws < 0.4 ∧ p.readability > 0.8 then (1 : ℚ) else 0
  let pen := |fd - p.complexity * 2| * 0.5
  let entAlign := (1 - |ent - p.complexity * 8|) * 0.2
  let bh := if truthyStr bgH ∧ bgH = some p.heading then (3 : ℚ) else 0
  let bb := if truthyStr bgB ∧ bgB = some p.body then (3 : ℚ) else 0
  base + b1 + b2 + b3 + b4 + b5 + b6 - pen + entAlign + bh + bb

/-- Diagnostic of the dynamic type error raised by the tie branch of the
selection loop, which subscripts a readability float. -/
def tieErrorMsg : String := "TypeError: float object is not subscriptable"

/-- One iteration of the best-pairing selection loop: on a strict
improvement the running best is replaced; on an exact tie with a best
already set, the source evaluates next(...)[5] on a float and raises,
modelled as an error. -/
def select_step (moodTags styleTags : List String) (ws hsym vsym fd ent bal aes : ℚ)
    (bgH bgB : Option String) (st : ℚ × Option (String × String)) (p : FontPairing) :
    Except String (ℚ × Option (String × String)) :=
  let score := pairing_score moodTags styleTags ws hsym vsym fd ent bal aes bgH bgB p
  if score > st.1 then Except.ok (score, some (p.heading, p.body))
  else if score = st.1 ∧ st.2.isSome then Except.error tieErrorMsg
  else Except.ok st

/-- Embedding of the best-pairing selection loop (font_suggester.py,
lines 177 to 231): a running maximum with first-seen stability, folded
over the catalog, failing on an exact tie. -/
def select_best_pairing (moodTags styleTags : List String) (ws hsym vsym fd ent bal aes : ℚ)
    (bgH bgB : Option String) : Except String (Option (String × String)) :=
  (FONT_PAIRINGS.foldlM (select_step moodTags styleTags ws hsym vsym fd ent bal aes bgH bgB)
    (((-1 : ℚ), (none : Option (String × String))))).map (fun st => st.2)

/-- Rounding half to even on the reals, the semantics of the host
language round() builtin applied to the float type scale. -/
noncomputable def pyRoundR (x : ℝ) : ℤ :=
  if Int.fract x = 1/2 then (if Even ⌊x⌋ then ⌊x⌋ else ⌊x⌋ + 1) else round x

/-- The golden ratio constant of the source. -/
def GOLDEN_RATIO : ℚ := 1.61803398875

/-- Font size scale record: pixel sizes per scale name. -/
structure FontScale where
  body : ℤ
  small : ℤ
  caption : ℤ
  h6 : ℤ
  h5 : ℤ
  h4 : ℤ
  h3 : ℤ
  h2 : ℤ
  h1 : ℤ
  display : ℤ
deriving DecidableEq

/-- Embedding of calculate_golden_ratio_font_scale (font_suggester.py,
lines 276 to 325): an adjusted golden-ratio multiplier and rounded
powers of it, floored at one pixel. -/
noncomputable def calculate_golden_ratio_font_scale (base ws aes fd ent : ℚ) : FontScale :=
  let r0 := if aes ≥ 8 then GOLDEN_RATIO + 0.07 else if aes ≤ 4 then GOLDEN_RATIO - 0.07 else GOLDEN_RATIO
  let r1 := r0 + ws * 0.03
  let ratio := if fd > 1.7 ∨ ent > 6.5 then r1 * 0.98
    else if fd < 1.3 ∨ ent < 3 then r1 * 1.02 else r1
  let b : ℝ := (base : ℝ)
  let rr : ℝ := (ratio : ℝ)
  { body := max 1 (pyRoundR b)
    small := max 1 (pyRoundR (b / rr))
    caption := max 1 (pyRoundR (b / rr ^ ((3 : ℝ) / 2)))
    h6 := max 1 (pyRoundR (b * rr))
    h5 := max 1 (pyRoundR (b * rr ^ (2 : ℕ)))
    h4 := max 1 (pyRoundR (b * rr ^ (3 : ℕ)))
    h3 := max 1 (pyRoundR (b * rr ^ (4 : ℕ)))
    h2 := max 1 (pyRoundR (b * rr ^ (5 : ℕ)))
    h1 := max 1 (pyRoundR (b * rr ^ (6 : ℕ)))
    display := max 1 (pyRoundR (b * rr ^ (7 : ℕ))) }

/-- Substring test on character lists. -/
def listContainsSub : List Char → List Char → Bool
  | _, [] => true
  | [], _ :: _ => false
  | h :: t, c :: cs => List.isPrefixOf (c :: cs) (h :: t) || listContainsSub t (c :: cs)

/-- Substring test on strings, the semantics of the in operator on str. -/
def strContains (hay sub : String) : Bool :=
  listContainsSub hay.data sub.data

/-- Micro-typographic recommendation record. -/
structure TypoRecs where
  line_height : String
  letter_spacing : String
deriving DecidableEq

/-- Embedding of get_typographic_recommendations (font_suggester.py,
lines 327 to 380). -/
def get_typographic_recommendations (heading body : String) (ws aes fd ent : ℚ)
    (dps : List String) : TypoRecs :=
  let lh := if ws > 0.6 ∨ aes ≥ 8 ∨ "minimalist" ∈ dps ∨ "clean" ∈ dps then "relaxed"
    else if ws < 0.4 ∨ fd > 1.7 ∨ ent > 6.5 ∨ "dense" ∈ dps ∨ "complex" ∈ dps then "tight"
    else if "professional" ∈ dps ∨ "balanced" ∈ dps then "normal"
    else "normal"
  let ls := if strContains heading.toLower "display" ∨ "bold" ∈ dps ∨ "expressive" ∈ dps ∨ "vibrant" ∈ dps then "wide"
    else if "light" ∈ dps ∨ "geometric" ∈ dps ∨ "minimalist" ∈ dps ∨ "clean" ∈ dps then "tight"
    else if strContains heading.toLower "script" ∨ strContains body.toLower "script" then "normal"
    else "normal"
  ⟨lh, ls⟩

/-- Result record of suggest_fonts. -/
structure FontResult where
  heading_font : String
  body_font : String
  font_size_scale : FontScale
  typographic_recommendations : TypoRecs

/-- Embedding of suggest_fonts (font_suggester.py, lines 34 to 274):
aggregation, infer-if-absent, the explicit-fonts early return with a
base size of 16, otherwise catalog selection (which can raise on a tie)
followed by the adjusted base size and scale. -/
noncomputable def suggest_fonts (results : List AnalysisRecord) (bg : BrandGuidelines) :
    Except String FontResult :=
  let ws := avg_whitespace results
  let hsym := avg_h_symmetry results
  let vsym := avg_v_symmetry results
  let fd := avg_fractal_dimension results
  let ent := avg_entropy results
  let bal := avg_visual_balance results
  let aes := avg_aesthetic_score results
  let moodTagsImg := aggregate_mood_tags results
  let typoTagsImg := aggregate_typography_tags results
  let active := if bg.isEmpty then
      infer_guidelines bg moodTagsImg typoTagsImg ws hsym vsym fd ent bal aes
    else bg
  let dps := designPrinciplesOf active
  let bgH := active.headingFont
  let bgB := active.bodyFont
  if truthyStr bgH ∧ truthyStr bgB then
    Except.ok { heading_font := bgH.getD ""
                body_font := bgB.getD ""
                font_size_scale := calculate_golden_ratio_font_scale 16 ws aes fd ent
                typographic_recommendations :=
                  get_typographic_recommendations (bgH.getD "") (bgB.getD "") ws aes fd ent dps }
  else
    let moodTags := dps.foldl addTag moodTagsImg
    let styleTags := dps.foldl addTag typoTagsImg
    (select_best_pairing moodTags styleTags ws hsym vsym fd ent bal aes bgH bgB).map (fun best =>
      let sh := match best with
        | some pr => if ¬ truthyStr bgH then pr.1 else "Roboto"
        | none => "Roboto"
      let sb := match best with
        | some pr => if ¬ truthyStr bgB then pr.2 else "Open Sans"
        | none => "Open Sans"
      let base0 := 16 + ws * 6 + aes / 10 * 4
      let base := if fd < 1.3 ∨ ent < 3 then base0 * 1.05
        else if fd > 1.7 ∨ ent > 6.5 then base0 * 0.95 else base0
      { heading_font := sh
        body_font := sb
        font_size_scale := calculate_golden_ratio_font_scale base ws aes fd ent
        typographic_recommendations :=
          get_typographic_recommendations sh sb ws aes fd ent dps })

/-- Analysis record of the concrete tie input: a single image whose mood
string is the single tag dense and which carries no numeric fields. -/
def recDense : AnalysisRecord := { mood_emotion := some "dense" }

/-- Brand guidelines of the concrete tie input: only a layout preference,
so no inference runs and no font is dictated. -/
def bgClassic : BrandGuidelines := { layoutPreference := some "classic" }

/-- The first six catalog entries, up to and including the tie. -/
def tiePrefixPairings : List FontPairing := [⟨"Roboto", "Open Sans", ["modern", "professional", "calm", "balanced", "clean", "structured", "subtle"], ["sans-serif", "light", "geometric", "clean"], 0.2, 0.9⟩,
    ⟨"Playfair Display", "Lora", ["elegant", "calm", "professional", "balanced", "subtle", "structured"], ["serif", "light", "classic"], 0.4, 0.8⟩,
    ⟨"Montserrat", "Lato", ["vibrant", "modern", "playful", "energetic", "dynamic", "bold", "complex"], ["sans-serif", "bold", "geometric", "display"], 0.6, 0.7⟩,
    ⟨"Oswald", "Merriweather", ["bold", "professional", "modern", "dense", "structured", "complex"], ["sans-serif", "serif", "bold"], 0.7, 0.75⟩,
    ⟨"Pacifico", "Quicksand", ["playful", "creative", "vibrant", "dynamic", "organic", "expressive"], ["script", "sans-serif", "expressive"], 0.8, 0.6⟩,
    ⟨"Space Mono", "IBM Plex Sans", ["techy", "modern", "professional", "dense", "structured", "complex"], ["monospace", "sans-serif", "geometric"], 0.7, 0.8⟩]

/-- Unsigned byte subtraction with wraparound modulo 256, the semantics
of uint8 array subtraction applied to the grayscale pixel halves. -/
def u8sub (a b : ℕ) : ℕ :=
  (((a : ℤ) - b) % 256).toNat

/-- Width of a pixel matrix: length of its first row (the column count
of the rectangular array). -/
def matWidth (g : List (List ℕ)) : ℕ :=
  (g.head?.getD []).length

/-- Element count of a pixel matrix. -/
def matSize (g : List (List ℕ)) : ℕ :=
  (g.map List.length).sum

/-- Embedding of the horizontal symmetry computation of analyze_image
(image_analyzer.py, lines 290 to 300): split off top and bottom halves
(dropping the middle row when the height is odd), flip the bottom, and
score one minus the summed uint8 difference over 255 times the pixel
count; zero when the shapes mismatch or the halves are empty. -/
def symmetry_horizontal (g : List (List ℕ)) : ℚ :=
  let h := g.length
  let top := g.take (h / 2)
  let bottom := g.drop (h / 2 + h % 2)
  let bf := bottom.reverse
  if top.map List.length = bf.map List.length ∧ 0 < matSize top then
    let diff := ((top.zip bf).map
      (fun pr => ((pr.1.zip pr.2).map (fun xy => u8sub xy.1 xy.2)).sum)).sum
    1 - (diff : ℚ) / (255 * matSize top)
  else 0

/-- Embedding of the vertical symmetry computation of analyze_image
(image_analyzer.py, lines 302 to 311), splitting left and right halves
of each row. -/
def symmetry_vertical (g : List (List ℕ)) : ℚ :=
  let w := matWidth g
  let left := g.map (fun row => row.take (w / 2))
  let right := g.map (fun row => row.drop (w / 2 + w % 2))
  let rf := right.map List.reverse
  if left.map List.length = rf.map List.length ∧ 0 < matSize left then
    let diff := ((left.zip rf).map
      (fun pr => ((pr.1.zip pr.2).map (fun xy => u8sub xy.1 xy.2)).sum)).sum
    1 - (diff : ℚ) / (255 * matSize left)
  else 0

/-- Embedding of the whitespace computation of analyze_image
(image_analyzer.py, lines 313 to 321): share of pixels brighter than 240
or darker than 15, as a percentage rounded to two decimals. -/
def whitespace_percentage (g : List (List ℕ)) : ℚ :=
  let total := matSize g
  if total = 0 then 0
  else
    let lightCount := (g.map (fun row => (row.filter (fun x => 240 < x)).length)).sum
    let darkCount := (g.map (fun row => (row.filter (fun x => x < 15)).length)).sum
    pyRound2Q (((lightCount + darkCount : ℕ) : ℚ) / total * 100)

/-- Embedding of calculate_image_entropy (image_analyzer.py, lines 79 to
102): Shannon entropy of the 256-bin intensity histogram. -/
noncomputable def calculate_image_entropy (g : List (List ℕ)) : ℝ :=
  if matSize g = 0 then 0
  else
    let flat := g.flatten
    let counts := (List.range 256).map (fun b => (flat.filter (fun x => x = b)).length)
    let S := counts.sum
    let terms := (counts.filter (fun c => 0 < c)).map
        (fun c => ((c : ℝ) / S) * Real.logb 2 ((c : ℝ) / S))
    Neg.neg terms.sum

/-- Embedding of calculate_visual_balance_score (image_analyzer.py,
lines 104 to 148): one minus the normalized distance between the
luminance-weighted center of mass and the geometric center. -/
noncomputable def calculate_visual_balance_score (g : List (List ℕ)) : ℝ :=
  if matSize g = 0 then 0
  else
    let height := g.length
    let width := matWidth g
    let total := (g.map List.sum).sum
    if total = 0 then 0
    else
      let sx := (g.map (fun row => (row.zipWith (fun v j => v * j) (List.range row.length)).sum)).sum
      let sy := ((g.map List.sum).zipWith (fun rs i => rs * i) (List.range height)).sum
      let cx : ℚ := (sx : ℚ) / total
      let cy : ℚ := (sy : ℚ) / total
      let gx : ℚ := ((width : ℚ) - 1) / 2
      let gy : ℚ := ((height : ℚ) - 1) / 2
      let distance := Real.sqrt (((cx - gx : ℚ) : ℝ) ^ 2 + ((cy - gy : ℚ) : ℝ) ^ 2)
      let maxd := Real.sqrt (((gx : ℝ)) ^ 2 + ((gy : ℝ)) ^ 2)
      if maxd = 0 then 1 else 1 - min 1 (distance / maxd)

/-- Entry of the zero-padded binarized matrix: positions beyond the
original shape read as zero, which models the power-of-two padding. -/
def matEntry (g : List (List ℕ)) (i j : ℕ) : ℕ :=
  (g.getD i []).getD j 0

/-- Binarization at a threshold: pixels strictly below it count as
foreground. -/
def binarize (g : List (List ℕ)) (threshold : ℕ) : List (List ℕ) :=
  g.map (List.map (fun x => if x < threshold then 1 else 0))

/-- Box counting on the padded p by p binary matrix with box size k:
the number of boxes containing at least one foreground pixel. -/
def boxcount (Z : List (List ℕ)) (p k : ℕ) : ℕ :=
  ((List.range (p / k)).map (fun bi =>
    ((List.range (p / k)).filter (fun bj =>
      0 < ((List.range k).map (fun di =>
        ((List.range k).map (fun dj => matEntry Z (bi * k + di) (bj * k + dj))).sum)).sum)).length)).sum

/-- Least-squares slope of a point list, the semantics of the degree-one
polyfit used for the box-counting regression. -/
noncomputable def polyfitSlope (pts : List (ℝ × ℝ)) : ℝ :=
  let n : ℝ := pts.length
  let sx := (pts.map Prod.fst).sum
  let sy := (pts.map Prod.snd).sum
  let sxy := (pts.map (fun pr => pr.1 * pr.2)).sum
  let sxx := (pts.map (fun pr => pr.1 ^ 2)).sum
  (n * sxy - sx * sy) / (n * sxx - sx ^ 2)

/-- Embedding of calculate_fractal_dimension (image_analyzer.py, lines
26 to 77): binarize below the threshold, pad to a power-of-two square,
box count over descending power-of-two sizes, drop empty counts, and
return the least-squares slope of log count against log inverse size;
zero for empty or blank images or fewer than two valid sizes. -/
noncomputable def calculate_fractal_dimension (g : List (List ℕ)) (threshold : ℕ) : ℝ :=
  if matSize g = 0 then 0
  else
    let Z := binarize g threshold
    if (Z.map List.sum).sum = 0 then 0
    else
      let p := 2 ^ (Nat.clog 2 (max g.length (matWidth g)))
      let E := Nat.log 2 p
      let sizes := (List.range (E - 1)).map (fun i => 2 ^ (E - i))
      let counts := sizes.map (fun k => boxcount Z p k)
      let valid := (sizes.zip counts).filter (fun sc => 0 < sc.2)
      if valid.length < 2 then 0
      else polyfitSlope (valid.map (fun sc => (Real.log (1 / (sc.1 : ℝ)), Real.log (sc.2 : ℝ))))

/-- The uniform solid-color image of the given height, width and gray
value. -/
def uniformImage (h w v : ℕ) : List (List ℕ) :=
  List.replicate h (List.replicate w v)

/-- Grayscale conversion of one RGB pixel, the integer ITU-R 601-2 luma
transform used by the image library when converting mode RGB to L. -/
def grayOfRGB (c : ℕ × ℕ × ℕ) : ℕ :=
  (19595 * c.1 + 38470 * c.2.1 + 7471 * c.2.2 + 32768) / 65536

/-- Embedding of the mood inference of analyze_image (image_analyzer.py,
lines 361 to 396): dominant channel and saturation pick the first tag,
high or low saturation appends vibrant or muted, the whitespace rules
append minimalist (removing one occurrence of vibrant) or dense, and the
average symmetry appends balanced and professional or dynamic and
creative.  The final set is the returned list up to duplicates. -/
def analyze_image_mood_tags (img : List (List (ℕ × ℕ × ℕ))) : List String :=
  let gray := img.map (List.map grayOfRGB)
  let n := matSize gray
  let ws := whitespace_percentage gray
  let symH := symmetry_horizontal gray
  let symV := symmetry_vertical gray
  let sumR := (img.map (fun row => (row.map (fun c => c.1)).sum)).sum
  let sumG := (img.map (fun row => (row.map (fun c => c.2.1)).sum)).sum
  let sumB := (img.map (fun row => (row.map (fun c => c.2.2)).sum)).sum
  let avgR : ℚ := if n = 0 then 0 else (sumR : ℚ) / n
  let avgG : ℚ := if n = 0 then 0 else (sumG : ℚ) / n
  let avgB : ℚ := if n = 0 then 0 else (sumB : ℚ) / n
  let sat := (rgb_to_hls (avgR / 255) (avgG / 255) (avgB / 255)).2.2
  let m1 : List String :=
    if avgR > avgG ∧ avgR > avgB then [if sat > 0.5 then "energetic" else "warm"]
    else if avgB > avgR ∧ avgB > avgG then [if sat > 0.5 then "vibrant" else "calm"]
    else ["neutral"]
  let m2 := m1 ++ (if sat > 0.7 then ["vibrant"] else if sat < 0.3 then ["muted"] else [])
  let m3 :=
    if ws > 70 then
      let mm := m2 ++ ["minimalist"]
      if "vibrant" ∈ mm then mm.erase "vibrant" else mm
    else if ws < 30 then m2 ++ ["dense"]
    else m2
  let avgSym := (symH + symV) / 2
  if avgSym > 0.8 then m3 ++ ["balanced", "professional"]
  else if avgSym < 0.5 then m3 ++ ["dynamic", "creative"]
  else m3

/-- The two-by-two uniform deep blue image used to exhibit the duplicate
vibrant tag: channel values (0, 0, 100). -/
def imgBlue : List (List (ℕ × ℕ × ℕ)) :=
  List.replicate 2 (List.replicate 2 (0, 0, 100))

/-- Brand guidelines dictating both fonts, the explicit-fonts mode. -/
def bgGeorgiaVerdana : BrandGuidelines :=
  { headingFont := some "Georgia", bodyFont := some "Verdana" }

/-- Lowercase hexadecimal digit. -/
def hexDigit (n : ℕ) : Char :=
  if n < 10 then Char.ofNat (48 + n) else Char.ofNat (87 + n)

/-- Two-digit lowercase hex rendering of a byte-sized channel, the
semantics of the 02x format on channel values. -/
def hex2 (n : ℤ) : String :=
  String.mk [hexDigit ((n.toNat / 16) % 16), hexDigit (n.toNat % 16)]

/-- Embedding of rgb_to_hex (palette_extractor.py, lines 15 to 17). -/
def rgb_to_hex (rgb : ℤ × ℤ × ℤ) : String :=
  "#" ++ hex2 rgb.1 ++ hex2 rgb.2.1 ++ hex2 rgb.2.2

/-- The WCAG gamma expansion of one normalized channel, as written in
get_luminance. -/
noncomputable def gammaExpand (c : ℝ) : ℝ :=
  if c ≤ 0.03928 then c / 12.92 else ((c + 0.055) / 1.055) ^ (2.4 : ℝ)

/-- Embedding of get_luminance (palette_extractor.py, lines 19 to 32). -/
noncomputable def get_luminance (rgb : ℤ × ℤ × ℤ) : ℝ :=
  0.2126 * gammaExpand ((rgb.1 : ℝ) / 255) + 0.7152 * gammaExpand ((rgb.2.1 : ℝ) / 255) +
    0.0722 * gammaExpand ((rgb.2.2 : ℝ) / 255)

/-- Embedding of get_contrast_ratio (palette_extractor.py, lines 34 to
46): the lighter luminance is placed in the numerator. -/
noncomputable def get_contrast_ratio (rgb1 rgb2 : ℤ × ℤ × ℤ) : ℝ :=
  let L1 := get_luminance rgb1
  let L2 := get_luminance rgb2
  if L2 > L1 then (L2 + 0.05) / (L1 + 0.05) else (L1 + 0.05) / (L2 + 0.05)

/-- Compliance record of check_wcag_compliance. -/
structure WCAGCompliance where
  AA_normal_text : Prop
  AA_large_text : Prop
  AAA_normal_text : Prop
  AAA_large_text : Prop

/-- Embedding of check_wcag_compliance (palette_extractor.py, lines 48
to 59). -/
def check_wcag_compliance (contrast_ratio : ℝ) : WCAGCompliance :=
  { AA_normal_text := contrast_ratio ≥ 4.5
    AA_large_text := contrast_ratio ≥ 3.0
    AAA_normal_text := contrast_ratio ≥ 7.0
    AAA_large_text := contrast_ratio ≥ 4.5 }

/-- The lightness-adjustment loop of suggest_accessible_color, with the
iteration budget max_attempts made an explicit fuel argument: each pass
returns the current color once the target contrast is met, otherwise
steps the remembered lightness by 0.05 toward the background contrast,
clamps it into the unit interval and rebuilds the color from HLS. -/
noncomputable def sacLoop (hue saturation : ℚ) (background : ℤ × ℤ × ℤ) (target : ℝ) :
    ℕ → ℚ → ℤ × ℤ × ℤ → ℤ × ℤ × ℤ
  | 0, _, current => current
  | n + 1, lightness, current =>
    if get_contrast_ratio current background ≥ target then current
    else
      let newL := max 0 (min 1
        (if get_luminance current < get_luminance background then lightness + 0.05
         else lightness - 0.05))
      let rgbn := hls_to_rgb hue newL saturation
      sacLoop hue saturation background target n newL
        (pyTrunc (rgbn.1 * 255), pyTrunc (rgbn.2.1 * 255), pyTrunc (rgbn.2.2 * 255))

/-- Embedding of suggest_accessible_color (palette_extractor.py, lines
61 to 94): the color is decomposed into HLS once and the loop runs for
the twenty attempts of the source. -/
noncomputable def suggest_accessible_color (original_rgb background_rgb : ℤ × ℤ × ℤ)
    (target_contrast : ℝ) : ℤ × ℤ × ℤ :=
  let original_hls := rgb_to_hls ((original_rgb.1 : ℚ) / 255) ((original_rgb.2.1 : ℚ) / 255)
    ((original_rgb.2.2 : ℚ) / 255)
  sacLoop original_hls.1 original_hls.2.2 background_rgb target_contrast 20
    original_hls.2.1 original_rgb

/-- Harmony record returned by calculate_color_harmony_score. -/
structure HarmonyResult where
  score : ℚ
  explanation : String
deriving DecidableEq

/-- Angular hue distance on the 360-degree wheel as computed inline in
calculate_color_harmony_score. -/
def angularDiff (h1 h2 : ℚ) : ℚ :=
  min |h1 - h2| (360 - |h1 - h2|)

/-- Maximum of a nonempty rational list, the max builtin. -/
def listMaxQ (l : List ℚ) : ℚ :=
  l.foldl max (l.headD 0)

/-- Minimum of a nonempty rational list, the min builtin. -/
def listMinQ (l : List ℚ) : ℚ :=
  l.foldl min (l.headD 0)

/-- The analogous test of rule 2: every cyclically consecutive pair of
sorted hues is at most 60 degrees apart. -/
def isAnalogousHues (hues : List ℚ) : Bool :=
  (List.range hues.length).all (fun i =>
    decide (angularDiff (hues.getD i 0) (hues.getD ((i + 1) % hues.length) 0) ≤ 60))

/-- The complementary-pair scan of rule 3 for more than two hues: for
each index the inner loop breaks at the first partner within 15 degrees
of opposition, adding 1.5 and one explanation entry. -/
def complementaryBonus (hues : List ℚ) : ℚ × List String :=
  (List.range hues.length).foldl (fun acc i =>
    match (List.range' (i + 1) (hues.length - (i + 1))).find? (fun j =>
        decide (|angularDiff (hues.getD i 0) (hues.getD j 0) - 180| < 15)) with
    | some j => (acc.1 + 1.5, acc.2 ++
        ["Contains a complementary pair (hues " ++ toString (pyRoundQ (hues.getD i 0)) ++
          "° and " ++ toString (pyRoundQ (hues.getD j 0)) ++ "°)."])
    | none => acc) (0, [])

/-- Embedding of calculate_color_harmony_score (palette_extractor.py,
lines 96 to 192): empty and singleton palettes short-circuit, otherwise
hues in degrees are sorted and scored by the monochromatic, analogous,
complementary and triadic rules, capped into the 0 to 10 range and
rounded to two decimals. -/
def calculate_color_harmony_score (colors_rgb : List (ℤ × ℤ × ℤ)) : HarmonyResult :=
  if colors_rgb = [] then
    { score := 0, explanation := "No colors provided for harmony analysis." }
  else if colors_rgb.length = 1 then
    { score := 7, explanation := "Single color palette is inherently harmonious (monochromatic)." }
  else
    let hues0 := colors_rgb.map (fun c =>
      (rgb_to_hls ((c.1 : ℚ) / 255) ((c.2.1 : ℚ) / 255) ((c.2.2 : ℚ) / 255)).1 * 360)
    let hues := hues0.mergeSort (fun a b => decide (a ≤ b))
    let r1 : ℚ × List String :=
      if 1 < hues.length ∧ (listMaxQ hues - listMinQ hues < 15 ∨
          360 - (listMaxQ hues - listMinQ hues) < 15) then
        (2, ["Monochromatic (hues are very close)."])
      else (0, [])
    let r2 : ℚ × List String :=
      if 1 < hues.length ∧ isAnalogousHues hues = true then
        (3, ["Analogous (hues are close on the color wheel)."])
      else (0, [])
    let r3 : ℚ × List String :=
      if hues.length = 2 then
        (if |angularDiff (hues.getD 0 0) (hues.getD 1 0) - 180| < 15 then
          (4, ["Complementary (two main hues are opposite)."])
         else (0, []))
      else if 2 < hues.length then complementaryBonus hues
      else (0, [])
    let r4 : ℚ × List String :=
      if 3 ≤ hues.length ∧ hues.length = 3 then
        (let hs := hues.mergeSort (fun a b => decide (a ≤ b))
         let d1 := angularDiff (hs.getD 1 0) (hs.getD 0 0)
         let d2 := angularDiff (hs.getD 2 0) (hs.getD 1 0)
         let d3 := angularDiff (hs.getD 0 0) (hs.getD 2 0)
         if |d1 - 120| < 15 ∧ |d2 - 120| < 15 ∧ |d3 - 120| < 15 then
           (5, ["Triadic (three main hues are equally spaced)."])
         else (0, []))
      else (0, [])
    let harmony_score := r1.1 + r2.1 + r3.1 + r4.1
    let explanation := r1.2 ++ r2.2 ++ r3.2 ++ r4.2
    let final_score := max 0 (min 10 harmony_score)
    if explanation = [] then
      { score := pyRound2Q (max final_score 3)
        explanation := "No specific harmony pattern detected, but colors are present." }
    else
      { score := pyRound2Q final_score
        explanation := String.intercalate ". " explanation }

/-- The named color fields of the extracted palette. -/
structure PaletteNames where
  primary : String
  secondary : String
  accent : String
deriving DecidableEq

/-- One accessibility-suggestion entry of extract_palette. -/
structure AccessSuggestion where
  issue : String
  context : String
  current_ratio : ℝ
  required_AA : ℚ
  suggestion : String
  compliant_AA_normal : Prop

/-- The record returned by extract_palette. -/
structure PaletteResult where
  palette : PaletteNames
  accessibility_suggestions : List AccessSuggestion
  color_harmony_score : HarmonyResult

/-- Rounding a real to two decimal places, round(x, 2) on the contrast
ratio. -/
noncomputable def pyRound2R (x : ℝ) : ℝ :=
  (pyRoundR (x * 100) : ℝ) / 100

/-- Embedding of np.bincount on the cluster labels: occurrence counts up
to the largest label, empty on no labels. -/
def bincount (labels : List ℕ) : List ℕ :=
  if labels = [] then []
  else (List.range (labels.foldl max 0 + 1)).map (fun i =>
    (labels.filter (fun l => l = i)).length)

/-- Channel-wise map over an RGB triple, the tuple comprehensions of the
mode-bias step. -/
def mapRGB (f : ℤ → ℤ) (c : ℤ × ℤ × ℤ) : ℤ × ℤ × ℤ :=
  (f c.1, f c.2.1, f c.2.2)

/-- The color-palette-style adjustment of extract_palette: muted scales
saturation by 0.7, pastel scales lightness by 1.2 (capped at 1) and
saturation by 0.8, both through an HLS round trip; vibrant is the
identity. -/
def styleAdjust (style : String) (c : ℤ × ℤ × ℤ) : ℤ × ℤ × ℤ :=
  if style = "muted" then
    let hls := rgb_to_hls ((c.1 : ℚ) / 255) ((c.2.1 : ℚ) / 255) ((c.2.2 : ℚ) / 255)
    let rgbn := hls_to_rgb hls.1 hls.2.1 (max 0 (hls.2.2 * 0.7))
    (pyTrunc (rgbn.1 * 255), pyTrunc (rgbn.2.1 * 255), pyTrunc (rgbn.2.2 * 255))
  else if style = "pastel" then
    let hls := rgb_to_hls ((c.1 : ℚ) / 255) ((c.2.1 : ℚ) / 255) ((c.2.2 : ℚ) / 255)
    let rgbn := hls_to_rgb hls.1 (min 1 (hls.2.1 * 1.2)) (hls.2.2 * 0.8)
    (pyTrunc (rgbn.1 * 255), pyTrunc (rgbn.2.1 * 255), pyTrunc (rgbn.2.2 * 255))
  else c

open Classical in
/-- Embedding of extract_palette (palette_extractor.py, lines 195 to
356). Image decoding and the MiniBatchKMeans fit are external library
collaborators: pixelLoads carries, per input path, the decoded pixel
list or none when loading failed, and km returns the normalized cluster
centers and per-pixel labels. The descending argsort of the label
counts is modeled by a deterministic sort on indices. Everything else
follows the source: the two early returns with the default palette, the
dominance ordering, the mode bias, the style adjustment, the three WCAG
checks with their suggestion entries, and the harmony score of the
three main colors. -/
noncomputable def extract_palette (pixelLoads : List (Option (List (ℤ × ℤ × ℤ))))
    (km : List (ℤ × ℤ × ℤ) → List (ℚ × ℚ × ℚ) × List ℕ)
    (color_palette_style : String) (mode : String) : PaletteResult :=
  if pixelLoads = [] then
    { palette := { primary := "#FFFFFF", secondary := "#CCCCCC", accent := "#000000" }
      accessibility_suggestions := []
      color_harmony_score := { score := 0, explanation := "No images provided for color analysis." } }
  else
    let all_pixels := (pixelLoads.filterMap id).flatten
    if all_pixels = [] then
      { palette := { primary := "#FFFFFF", secondary := "#CCCCCC", accent := "#000000" }
        accessibility_suggestions := []
        color_harmony_score := { score := 0, explanation := "No valid pixels extracted for color analysis." } }
    else
      let kr := km all_pixels
      let dominant_rgbs := kr.1.map (fun c =>
        (pyTrunc (c.1 * 255), pyTrunc (c.2.1 * 255), pyTrunc (c.2.2 * 255)))
      let label_counts := bincount kr.2
      let sorted_indices := (List.range label_counts.length).mergeSort (fun i j =>
        decide (label_counts.getD j 0 ≤ label_counts.getD i 0))
      let primary0 := if 0 < sorted_indices.length then
          dominant_rgbs.getD (sorted_indices.getD 0 0) (0, 0, 0) else (255, 255, 255)
      let secondary0 := if 1 < sorted_indices.length then
          dominant_rgbs.getD (sorted_indices.getD 1 0) (0, 0, 0) else (204, 204, 204)
      let accent0 := if 2 < sorted_indices.length then
          dominant_rgbs.getD (sorted_indices.getD 2 0) (0, 0, 0) else (0, 0, 0)
      let primary1 := if mode = "dark" then mapRGB (fun x => max 0 (x - 50)) primary0
        else mapRGB (fun x => min 255 (x + 20)) primary0
      let secondary1 := if mode = "dark" then mapRGB (fun x => max 0 (x - 30)) secondary0
        else mapRGB (fun x => min 255 (x + 10)) secondary0
      let accent1 := if mode = "dark" then mapRGB (fun x => min 255 (x + 50)) accent0
        else mapRGB (fun x => max 0 (x - 20)) accent0
      let primary_rgb := styleAdjust color_palette_style primary1
      let secondary_rgb := styleAdjust color_palette_style secondary1
      let accent_rgb := styleAdjust color_palette_style accent1
      let extracted : PaletteNames :=
        { primary := rgb_to_hex primary_rgb
          secondary := rgb_to_hex secondary_rgb
          accent := rgb_to_hex accent_rgb }
      let text_color := if get_luminance primary_rgb > 0.5 then ((0 : ℤ), (0 : ℤ), (0 : ℤ))
        else (255, 255, 255)
      let contrast_primary_text := get_contrast_ratio primary_rgb text_color
      let s1 : List AccessSuggestion :=
        if (check_wcag_compliance contrast_primary_text).AA_normal_text then []
        else [{ issue := "Primary color contrast with text"
                context := "Primary background (" ++ extracted.primary ++ ") vs. text (" ++
                  rgb_to_hex text_color ++ ")"
                current_ratio := pyRound2R contrast_primary_text
                required_AA := 4.5
                suggestion := "Consider adjusting text color to " ++
                  rgb_to_hex (suggest_accessible_color text_color primary_rgb 4.5) ++
                  " or primary background for better contrast."
                compliant_AA_normal := (check_wcag_compliance contrast_primary_text).AA_normal_text }]
      let contrast_secondary := get_contrast_ratio secondary_rgb primary_rgb
      let s2 : List AccessSuggestion :=
        if (check_wcag_compliance contrast_secondary).AA_normal_text then []
        else [{ issue := "Secondary color contrast with Primary background"
                context := "Secondary element (" ++ extracted.secondary ++
                  ") on Primary background (" ++ extracted.primary ++ ")"
                current_ratio := pyRound2R contrast_secondary
                required_AA := 4.5
                suggestion := "Consider adjusting secondary color to " ++
                  rgb_to_hex (suggest_accessible_color secondary_rgb primary_rgb 4.5) ++
                  " for better contrast."
                compliant_AA_normal := (check_wcag_compliance contrast_secondary).AA_normal_text }]
      let contrast_accent := get_contrast_ratio accent_rgb primary_rgb
      let s3 : List AccessSuggestion :=
        if (check_wcag_compliance contrast_accent).AA_normal_text then []
        else [{ issue := "Accent color contrast with Primary background"
                context := "Accent element (" ++ extracted.accent ++
                  ") on Primary background (" ++ extracted.primary ++ ")"
                current_ratio := pyRound2R contrast_accent
                required_AA := 4.5
                suggestion := "Consider adjusting accent color to " ++
                  rgb_to_hex (suggest_accessible_color accent_rgb primary_rgb 4.5) ++
                  " for better contrast."
                compliant_AA_normal := (check_wcag_compliance contrast_accent).AA_normal_text }]
      { palette := extracted
        accessibility_suggestions := s1 ++ s2 ++ s3
        color_harmony_score :=
          calculate_color_harmony_score [primary_rgb, secondary_rgb, accent_rgb] }

/-- Case form of the absolute value on rationals, for literal evaluation. -/
lemma abs_ite (q : ℚ) : |q| = if 0 ≤ q then q else -q := by
  rcases le_or_lt 0 q with h | h
  · rw [abs_of_nonneg h, if_pos h]
  · rw [abs_of_neg h, if_neg (not_le.mpr h)]

lemma exc_bind_ok {α β ε : Type} (a : α) (f : α → Except ε β) :
    ((Except.ok a : Except ε α) >>= f) = f a := rfl

lemma exc_bind_err {α β ε : Type} (e : ε) (f : α → Except ε β) :
    ((Except.error e : Except ε α) >>= f) = Except.error e := rfl

lemma tie_step0 :
    select_step ["dense"] [] (1/2) (1/2) (1/2) (3/2) 4 (1/2) 5 none none
      (((-1 : ℚ), (none : Option (String × String))))
      ⟨"Roboto", "Open Sans", ["modern", "professional", "calm", "balanced", "clean", "structured", "subtle"], ["sans-serif", "light", "geometric", "clean"], 0.2, 0.9⟩ =
      Except.ok (-(83/100), some ("Roboto", "Open Sans")) := by
  simp only [select_step, pairing_score, truthyStr]
  simp [abs_ite]
  norm_num

lemma tie_step1 :
    select_step ["dense"] [] (1/2) (1/2) (1/2) (3/2) 4 (1/2) 5 none none
      ((-(83/100 : ℚ), some ("Roboto", "Open Sans")))
      ⟨"Playfair Display", "Lora", ["elegant", "calm", "professional", "balanced", "subtle", "structured"], ["serif", "light", "classic"], 0.4, 0.8⟩ =
      Except.ok (-(31/100), some ("Playfair Display", "Lora")) := by
  simp only [select_step, pairing_score, truthyStr]
  simp [abs_ite]
  norm_num

lemma tie_step2 :
    select_step ["dense"] [] (1/2) (1/2) (1/2) (3/2) 4 (1/2) 5 none none
      ((-(31/100 : ℚ), some ("Playfair Display", "Lora")))
      ⟨"Montserrat", "Lato", ["vibrant", "modern", "playful", "energetic", "dynamic", "bold", "complex"], ["sans-serif", "bold", "geometric", "display"], 0.6, 0.7⟩ =
      Except.ok (-(11/100), some ("Montserrat", "Lato")) := by
  simp only [select_step, pairing_score, truthyStr]
  simp [abs_ite]
  norm_num

lemma tie_step3 :
    select_step ["dense"] [] (1/2) (1/2) (1/2) (3/2) 4 (1/2) 5 none none
      ((-(11/100 : ℚ), some ("Montserrat", "Lato")))
      ⟨"Oswald", "Merriweather", ["bold", "professional", "modern", "dense", "structured", "complex"], ["sans-serif", "serif", "bold"], 0.7, 0.75⟩ =
      Except.ok (183/100, some ("Oswald", "Merriweather")) := by
  simp only [select_step, pairing_score, truthyStr]
  simp [abs_ite]
  norm_num

lemma tie_step4 :
    select_step ["dense"] [] (1/2) (1/2) (1/2) (3/2) 4 (1/2) 5 none none
      (((183/100 : ℚ), some ("Oswald", "Merriweather")))
      ⟨"Pacifico", "Quicksand", ["playful", "creative", "vibrant", "dynamic", "organic", "expressive"], ["script", "sans-serif", "expressive"], 0.8, 0.6⟩ =
      Except.ok (183/100, some ("Oswald", "Merriweather")) := by
  simp only [select_step, pairing_score, truthyStr]
  simp [abs_ite]
  norm_num

lemma tie_step5 :
    select_step ["dense"] [] (1/2) (1/2) (1/2) (3/2) 4 (1/2) 5 none none
      (((183/100 : ℚ), some ("Oswald", "Merriweather")))
      ⟨"Space Mono", "IBM Plex Sans", ["techy", "modern", "professional", "dense", "structured", "complex"], ["monospace", "sans-serif", "geometric"], 0.7, 0.8⟩ =
      Except.error tieErrorMsg := by
  simp only [select_step, pairing_score, truthyStr]
  simp [abs_ite]
  norm_num

/-- Evaluation of the selection loop over the first six catalog entries
on the tie input: the sixth entry scores equal to the running maximum
with a best pairing already set, and the loop errors there. -/
lemma tie_prefix_eval :
    List.foldlM (select_step ["dense"] [] (1/2) (1/2) (1/2) (3/2) 4 (1/2) 5 none none)
      (((-1 : ℚ), (none : Option (String × String)))) tiePrefixPairings =
      Except.error tieErrorMsg := by
  rw [show tiePrefixPairings = ⟨"Roboto", "Open Sans", ["modern", "professional", "calm", "balanced", "clean", "structured", "subtle"], ["sans-serif", "light", "geometric", "clean"], 0.2, 0.9⟩ ::
    tiePrefixPairings.drop 1 from rfl]
  rw [List.foldlM_cons, tie_step0, exc_bind_ok]
  rw [show tiePrefixPairings.drop 1 = ⟨"Playfair Display", "Lora", ["elegant", "calm", "professional", "balanced", "subtle", "structured"], ["serif", "light", "classic"], 0.4, 0.8⟩ ::
    tiePrefixPairings.drop 2 from rfl]
  rw [List.foldlM_cons, tie_step1, exc_bind_ok]
  rw [show tiePrefixPairings.drop 2 = ⟨"Montserrat", "Lato", ["vibrant", "modern", "playful", "energetic", "dynamic", "bold", "complex"], ["sans-serif", "bold", "geometric", "display"], 0.6, 0.7⟩ ::
    tiePrefixPairings.drop 3 from rfl]
  rw [List.foldlM_cons, tie_step2, exc_bind_ok]
  rw [show tiePrefixPairings.drop 3 = ⟨"Oswald", "Merriweather", ["bold", "professional", "modern", "dense", "structured", "complex"], ["sans-serif", "serif", "bold"], 0.7, 0.75⟩ ::
    tiePrefixPairings.drop 4 from rfl]
  rw [List.foldlM_cons, tie_step3, exc_bind_ok]
  rw [show tiePrefixPairings.drop 4 = ⟨"Pacifico", "Quicksand", ["playful", "creative", "vibrant", "dynamic", "organic", "expressive"], ["script", "sans-serif", "expressive"], 0.8, 0.6⟩ ::
    tiePrefixPairings.drop 5 from rfl]
  rw [List.foldlM_cons, tie_step4, exc_bind_ok]
  rw [show tiePrefixPairings.drop 5 = [⟨"Space Mono", "IBM Plex Sans", ["techy", "modern", "professional", "dense", "structured", "complex"], ["monospace", "sans-serif", "geometric"], 0.7, 0.8⟩] from rfl]
  rw [List.foldlM_cons, tie_step5, exc_bind_err]

/-- Evaluation of the selection loop on the tie input. -/
lemma select_tie_eval :
    select_best_pairing ["dense"] [] (1/2) (1/2) (1/2) (3/2) 4 (1/2) 5 none none =
      Except.error tieErrorMsg := by
  unfold select_best_pairing
  rw [show FONT_PAIRINGS = tiePrefixPairings ++ FONT_PAIRINGS.drop 6 from rfl]
  rw [List.foldlM_append, tie_prefix_eval, exc_bind_err]
  rfl

/-- Claim C1: the spec asserts no core operation ever raises.  On the
input with one mood tag dense and guidelines that fix only the layout,
the Oswald and Space Mono pairings (equal complexity 0.7, both carrying
the dense mood) reach exactly equal scores, and suggest_fonts raises the
modelled TypeError in the tie branch instead of returning a result. -/
theorem suggest_fonts_raises_on_tie :
    suggest_fonts [recDense] bgClassic = Except.error tieErrorMsg := by
  have h1 : aggregate_mood_tags [recDense] = ["dense"] := by decide
  have h2 : aggregate_typography_tags [recDense] = [] := by decide
  have h3 : avg_whitespace [recDense] = 1/2 := rfl
  have h4 : avg_h_symmetry [recDense] = 1/2 := rfl
  have h5 : avg_v_symmetry [recDense] = 1/2 := rfl
  have h6 : avg_fractal_dimension [recDense] = 3/2 := rfl
  have h7 : avg_entropy [recDense] = 4 := rfl
  have h8 : avg_visual_balance [recDense] = 1/2 := rfl
  have h9 : avg_aesthetic_score [recDense] = 5 := rfl
  have hbg : bgClassic.isEmpty = false := by decide
  have hdp : designPrinciplesOf bgClassic = [] := by decide
  have hHn : bgClassic.headingFont = none := rfl
  have hBn : bgClassic.bodyFont = none := rfl
  have htr : truthyStr none = false := rfl
  simp only [suggest_fonts, h1, h2, h3, h4, h5, h6, h7, h8, h9, hbg, hdp, hHn, hBn, htr,
    Bool.false_eq_true, ite_false, false_and, List.foldl_nil]
  rw [select_tie_eval]
  rfl

/-- Claim C2: the spec describes a three-stage tie-break (brand-font
match, then body readability under low whitespace, then first-seen
stability) always yielding a catalog pairing.  On the tie input the
selection loop instead evaluates next(...)[5] on a readability float and
raises, so the tie-break never yields any pairing. -/
theorem select_best_pairing_tie_no_result :
    select_best_pairing ["dense"] [] (1/2) (1/2) (1/2) (3/2) 4 (1/2) 5 none none =
      Except.error tieErrorMsg := select_tie_eval

lemma mem_keepColor (g : List (String × JVal)) (k0 k s : String) :
    (k, s) ∈ keepColor g k0 ↔
      k = k0 ∧ lookupKey g k0 = some (JVal.jstr s) ∧
        (s.startsWith "#" = true ∧ (s.length = 7 ∨ s.length = 4)) := by
  unfold keepColor
  rcases h : lookupKey g k0 with _ | v
  · simp [h]
  · cases v with
    | jstr t =>
        simp only [h, Option.some.injEq, JVal.jstr.injEq]
        by_cases hc : (t.startsWith "#" && (t.length == 7 || t.length == 4)) = true
        · rw [if_pos hc]
          simp only [Bool.and_eq_true, Bool.or_eq_true, beq_iff_eq] at hc
          simp only [List.mem_singleton, Prod.mk.injEq]
          constructor
          · rintro ⟨rfl, rfl⟩
            exact ⟨rfl, rfl, hc.1, hc.2⟩
          · rintro ⟨rfl, rfl, _⟩
            exact ⟨rfl, rfl⟩
        · rw [if_neg hc]
          simp only [List.not_mem_nil, false_iff]
          rintro ⟨rfl, rfl, hw1, hw2⟩
          exact hc (by simp only [Bool.and_eq_true, Bool.or_eq_true, beq_iff_eq]
                       exact ⟨hw1, hw2⟩)
    | jnum => simp [h]
    | jbool => simp [h]
    | jnull => simp [h]
    | jarr => simp [h]
    | jobj => simp [h]

lemma mem_keepFont (g : List (String × JVal)) (k0 k s : String) :
    (k, s) ∈ keepFont g k0 ↔
      k = k0 ∧ lookupKey g k0 = some (JVal.jstr s) ∧ s ≠ "" := by
  unfold keepFont
  rcases h : lookupKey g k0 with _ | v
  · simp [h]
  · cases v with
    | jstr t =>
        simp only [h, Option.some.injEq, JVal.jstr.injEq]
        by_cases hc : t = ""
        · rw [if_neg (by simp [hc])]
          simp only [List.not_mem_nil, false_iff]
          rintro ⟨rfl, rfl, hw⟩
          exact hw hc
        · rw [if_pos hc]
          simp only [List.mem_singleton, Prod.mk.injEq]
          constructor
          · rintro ⟨rfl, rfl⟩
            exact ⟨rfl, rfl, hc⟩
          · rintro ⟨rfl, rfl, _⟩
            exact ⟨rfl, rfl⟩
    | jnum => simp [h]
    | jbool => simp [h]
    | jnull => simp [h]
    | jarr => simp [h]
    | jobj => simp [h]

lemma mem_keepLayout (g : List (String × JVal)) (k s : String) :
    (k, s) ∈ keepLayout g ↔
      k = "layoutPreference" ∧ lookupKey g "layoutPreference" = some (JVal.jstr s) ∧
        s ∈ ["minimalist", "bold", "classic", "modern"] := by
  unfold keepLayout
  rcases h : lookupKey g "layoutPreference" with _ | v
  · simp [h]
  · cases v with
    | jstr t =>
        simp only [h, Option.some.injEq, JVal.jstr.injEq]
        by_cases hc : t ∈ ["minimalist", "bold", "classic", "modern"]
        · rw [if_pos hc]
          simp only [List.mem_singleton, Prod.mk.injEq]
          constructor
          · rintro ⟨rfl, rfl⟩
            exact ⟨rfl, rfl, hc⟩
          · rintro ⟨rfl, rfl, _⟩
            exact ⟨rfl, rfl⟩
        · rw [if_neg hc]
          simp only [List.not_mem_nil, false_iff]
          rintro ⟨rfl, rfl, hw⟩
          exact hc hw
    | jnum => simp [h]
    | jbool => simp [h]
    | jnull => simp [h]
    | jarr => simp [h]
    | jobj => simp [h]

/-- Claim C5 counterexample: a record whose only key is a well-formed
designPrinciples list comes back empty from parse_brand_guidelines, so
the recognized key designPrinciples is not retained as the claim
states. -/
theorem parse_brand_guidelines_drops_designPrinciples :
    "designPrinciples" ∉ (parse_brand_guidelines [("designPrinciples", JVal.jarr)]).map Prod.fst := by
  decide

/-- Claim C5 (amended): parse_brand_guidelines keeps exactly the pairs
whose key is one of the three color keys with a string value starting
with a hash of length 7 or 4, one of the two font keys with a non-empty
string value, or layoutPreference with one of the four recognized
values; every other key of the record, designPrinciples included, is
dropped, and no valid key is discarded because another key is
malformed. -/
theorem parse_brand_guidelines_mem (g : List (String × JVal)) (k s : String) :
    (k, s) ∈ parse_brand_guidelines g ↔
      ((k = "primaryColor" ∨ k = "secondaryColor" ∨ k = "accentColor") ∧
        lookupKey g k = some (JVal.jstr s) ∧
        (s.startsWith "#" = true ∧ (s.length = 7 ∨ s.length = 4))) ∨
      ((k = "headingFont" ∨ k = "bodyFont") ∧ lookupKey g k = some (JVal.jstr s) ∧ s ≠ "") ∨
      (k = "layoutPreference" ∧ lookupKey g k = some (JVal.jstr s) ∧
        s ∈ ["minimalist", "bold", "classic", "modern"]) := by
  unfold parse_brand_guidelines
  simp only [List.mem_append, mem_keepColor, mem_keepFont, mem_keepLayout]
  constructor
  · rintro (((((⟨rfl, hl, hv⟩ | ⟨rfl, hl, hv⟩) | ⟨rfl, hl, hv⟩) | ⟨rfl, hl, hv⟩) |
      ⟨rfl, hl, hv⟩) | ⟨rfl, hl, hv⟩)
    · exact Or.inl ⟨Or.inl rfl, hl, hv⟩
    · exact Or.inl ⟨Or.inr (Or.inl rfl), hl, hv⟩
    · exact Or.inl ⟨Or.inr (Or.inr rfl), hl, hv⟩
    · exact Or.inr (Or.inl ⟨Or.inl rfl, hl, hv⟩)
    · exact Or.inr (Or.inl ⟨Or.inr rfl, hl, hv⟩)
    · exact Or.inr (Or.inr ⟨rfl, hl, hv⟩)
  · rintro (⟨(rfl | rfl | rfl), hl, hv⟩ | ⟨(rfl | rfl), hl, hv⟩ | ⟨rfl, hl, hv⟩)
    · exact Or.inl (Or.inl (Or.inl (Or.inl (Or.inl ⟨rfl, hl, hv⟩))))
    · exact Or.inl (Or.inl (Or.inl (Or.inl (Or.inr ⟨rfl, hl, hv⟩))))
    · exact Or.inl (Or.inl (Or.inl (Or.inr ⟨rfl, hl, hv⟩)))
    · exact Or.inl (Or.inl (Or.inr ⟨rfl, hl, hv⟩))
    · exact Or.inl (Or.inr ⟨rfl, hl, hv⟩)
    · exact Or.inr ⟨rfl, hl, hv⟩

lemma mem_addTag (acc : List String) (t u : String) : t ∈ addTag acc u ↔ t ∈ acc ∨ t = u := by
  unfold addTag
  split
  · next h =>
      constructor
      · exact Or.inl
      · rintro (h2 | rfl)
        · exact h2
        · exact h
  · next h => simp [List.mem_append]

lemma mem_foldl_addTag (ts : List String) (acc : List String) (t : String) :
    t ∈ ts.foldl addTag acc ↔ t ∈ acc ∨ t ∈ ts := by
  induction ts generalizing acc with
  | nil => simp
  | cons x xs ih =>
      simp only [List.foldl_cons, ih, mem_addTag, List.mem_cons]
      tauto

lemma mem_foldl_mood_step (rs : List AnalysisRecord) (acc : List String) (t : String) :
    t ∈ rs.foldl (fun acc a =>
      match a.mood_emotion with
      | some s => if s ≠ "" ∧ s ≠ "neutral" then (tagsOfString s).foldl addTag acc else acc
      | none => acc) acc ↔
      t ∈ acc ∨ ∃ a ∈ rs, ∃ s, a.mood_emotion = some s ∧ s ≠ "" ∧ s ≠ "neutral" ∧
        t ∈ tagsOfString s := by
  induction rs generalizing acc with
  | nil => simp
  | cons x xs ih =>
      simp only [List.foldl_cons, ih, List.mem_cons]
      rcases hm : x.mood_emotion with _ | s
      · simp only [hm]
        constructor
        · rintro (h | ⟨a, ha, hrest⟩)
          · exact Or.inl h
          · exact Or.inr ⟨a, Or.inr ha, hrest⟩
        · rintro (h | ⟨a, (rfl | ha), hrest⟩)
          · exact Or.inl h
          · rcases hrest with ⟨s, hs, _⟩
            rw [hm] at hs
            cases hs
          · exact Or.inr ⟨a, ha, hrest⟩
      · by_cases hc : s ≠ "" ∧ s ≠ "neutral"
        · simp only [hm, if_pos hc, mem_foldl_addTag]
          constructor
          · rintro ((h | h) | ⟨a, ha, hrest⟩)
            · exact Or.inl h
            · exact Or.inr ⟨x, Or.inl rfl, s, hm, hc.1, hc.2, h⟩
            · exact Or.inr ⟨a, Or.inr ha, hrest⟩
          · rintro (h | ⟨a, (rfl | ha), hrest⟩)
            · exact Or.inl (Or.inl h)
            · rcases hrest with ⟨u, hu, _, _, ht⟩
              rw [hm] at hu
              cases hu
              exact Or.inl (Or.inr ht)
            · exact Or.inr ⟨a, ha, hrest⟩
        · simp only [hm, if_neg hc]
          constructor
          · rintro (h | ⟨a, ha, hrest⟩)
            · exact Or.inl h
            · exact Or.inr ⟨a, Or.inr ha, hrest⟩
          · rintro (h | ⟨a, (rfl | ha), hrest⟩)
            · exact Or.inl h
            · rcases hrest with ⟨u, hu, hu1, hu2, _⟩
              rw [hm] at hu
              cases hu
              exact absurd ⟨hu1, hu2⟩ hc
            · exact Or.inr ⟨a, ha, hrest⟩

lemma mem_foldl_typo_step (rs : List AnalysisRecord) (acc : List String) (t : String) :
    t ∈ rs.foldl (fun acc a =>
      match a.typography_inference with
      | some s => if s ≠ "" ∧ s ≠ "unknown" then (tagsOfString s).foldl addTag acc else acc
      | none => acc) acc ↔
      t ∈ acc ∨ ∃ a ∈ rs, ∃ s, a.typography_inference = some s ∧ s ≠ "" ∧ s ≠ "unknown" ∧
        t ∈ tagsOfString s := by
  induction rs generalizing acc with
  | nil => simp
  | cons x xs ih =>
      simp only [List.foldl_cons, ih, List.mem_cons]
      rcases hm : x.typography_inference with _ | s
      · simp only [hm]
        constructor
        · rintro (h | ⟨a, ha, hrest⟩)
          · exact Or.inl h
          · exact Or.inr ⟨a, Or.inr ha, hrest⟩
        · rintro (h | ⟨a, (rfl | ha), hrest⟩)
          · exact Or.inl h
          · rcases hrest with ⟨s, hs, _⟩
            rw [hm] at hs
            cases hs
          · exact Or.inr ⟨a, ha, hrest⟩
      · by_cases hc : s ≠ "" ∧ s ≠ "unknown"
        · simp only [hm, if_pos hc, mem_foldl_addTag]
          constructor
          · rintro ((h | h) | ⟨a, ha, hrest⟩)
            · exact Or.inl h
            · exact Or.inr ⟨x, Or.inl rfl, s, hm, hc.1, hc.2, h⟩
            · exact Or.inr ⟨a, Or.inr ha, hrest⟩
          · rintro (h | ⟨a, (rfl | ha), hrest⟩)
            · exact Or.inl (Or.inl h)
            · rcases hrest with ⟨u, hu, _, _, ht⟩
              rw [hm] at hu
              cases hu
              exact Or.inl (Or.inr ht)
            · exact Or.inr ⟨a, ha, hrest⟩
        · simp only [hm, if_neg hc]
          constructor
          · rintro (h | ⟨a, ha, hrest⟩)
            · exact Or.inl h
            · exact Or.inr ⟨a, Or.inr ha, hrest⟩
          · rintro (h | ⟨a, (rfl | ha), hrest⟩)
            · exact Or.inl h
            · rcases hrest with ⟨u, hu, hu1, hu2, _⟩
              rw [hm] at hu
              cases hu
              exact absurd ⟨hu1, hu2⟩ hc
            · exact Or.inr ⟨a, ha, hrest⟩

/-- Claim C8 counterexample: an image whose mood string combines the
sentinel with another tag leaks the sentinel into the aggregated mood
set, which the claim says can never contain neutral. -/
theorem aggregate_mood_tags_contains_neutral :
    "neutral" ∈ aggregate_mood_tags [{ mood_emotion := some "neutral, muted" }] := by
  decide

/-- Claim C8 (amended): a tag is in the aggregated mood (resp.
typography) set exactly when some image of the batch carries a present,
non-empty mood (resp. typography) string that is not exactly the
sentinel neutral (resp. unknown) and the tag is one of its comma-split,
stripped tokens; the sentinel is excluded only as a whole string, so a
combined string such as a neutral-plus-muted mood leaks neutral into
the union. -/
theorem aggregate_tags_mem (rs : List AnalysisRecord) (t : String) :
    (t ∈ aggregate_mood_tags rs ↔
      ∃ a ∈ rs, ∃ s, a.mood_emotion = some s ∧ s ≠ "" ∧ s ≠ "neutral" ∧
        t ∈ tagsOfString s) ∧
    (t ∈ aggregate_typography_tags rs ↔
      ∃ a ∈ rs, ∃ s, a.typography_inference = some s ∧ s ≠ "" ∧ s ≠ "unknown" ∧
        t ∈ tagsOfString s) := by
  constructor
  · rw [aggregate_mood_tags, mem_foldl_mood_step]
    simp
  · rw [aggregate_typography_tags, mem_foldl_typo_step]
    simp

lemma u8sub_self (v : ℕ) : u8sub v v = 0 := by
  simp [u8sub]

lemma flatten_replicate_replicate {α : Type} (h w : ℕ) (v : α) :
    (List.replicate h (List.replicate w v)).flatten = List.replicate (h * w) v := by
  induction h with
  | zero => simp
  | succ n ih =>
      rw [List.replicate_succ, List.flatten_cons, ih, Nat.succ_mul, Nat.add_comm,
        List.replicate_add]

lemma matSize_uniform (h w v : ℕ) : matSize (uniformImage h w v) = h * w := by
  simp [matSize, uniformImage, List.map_replicate, List.sum_replicate, smul_eq_mul]

lemma uniform_fractal (h w v : ℕ) (hh : 2 ≤ h) (hw : 2 ≤ w) (hv1 : 128 ≤ v) :
    calculate_fractal_dimension (uniformImage h w v) 128 = 0 := by
  unfold calculate_fractal_dimension
  rw [if_neg (by rw [matSize_uniform]; positivity)]
  rw [if_pos]
  simp only [binarize, uniformImage, List.map_replicate, List.sum_replicate, smul_eq_mul]
  rw [if_neg (by omega)]
  simp

lemma uniform_symmetry_horizontal (h w v : ℕ) (hh : 2 ≤ h) (hw : 1 ≤ w) :
    symmetry_horizontal (uniformImage h w v) = 1 := by
  simp only [symmetry_horizontal]
  have hlen : (uniformImage h w v).length = h := by simp [uniformImage]
  have htake : (uniformImage h w v).take (h / 2) = List.replicate (h / 2) (List.replicate w v) := by
    rw [uniformImage, List.take_replicate, inf_eq_left.mpr (Nat.div_le_self h 2)]
  have hdrop : (uniformImage h w v).drop (h / 2 + h % 2) =
      List.replicate (h / 2) (List.replicate w v) := by
    rw [uniformImage, List.drop_replicate]
    congr 1
    omega
  have hms : matSize (List.replicate (h / 2) (List.replicate w v)) = (h / 2) * w := by
    simp [matSize, List.map_replicate, List.sum_replicate, smul_eq_mul]
  rw [hlen, htake, hdrop, List.reverse_replicate]
  rw [if_pos]
  · simp [List.zip_replicate, List.map_replicate, u8sub_self, List.sum_replicate]
  · refine ⟨rfl, ?_⟩
    rw [hms]
    have h2 : 1 ≤ h / 2 := by omega
    positivity

lemma uniform_symmetry_vertical (h w v : ℕ) (hh : 1 ≤ h) (hw : 2 ≤ w) :
    symmetry_vertical (uniformImage h w v) = 1 := by
  simp only [symmetry_vertical]
  have hwid : matWidth (uniformImage h w v) = w := by
    unfold matWidth uniformImage
    cases h with
    | zero => omega
    | succ n => simp [List.replicate_succ]
  have htake : (uniformImage h w v).map (fun row => row.take (w / 2)) =
      List.replicate h (List.replicate (w / 2) v) := by
    rw [uniformImage, List.map_replicate, List.take_replicate,
      inf_eq_left.mpr (Nat.div_le_self w 2)]
  have hdrop : (uniformImage h w v).map (fun row => row.drop (w / 2 + w % 2)) =
      List.replicate h (List.replicate (w / 2) v) := by
    rw [uniformImage, List.map_replicate, List.drop_replicate]
    congr 2
    omega
  have hms : matSize (List.replicate h (List.replicate (w / 2) v)) = h * (w / 2) := by
    simp [matSize, List.map_replicate, List.sum_replicate, smul_eq_mul]
  rw [hwid, htake, hdrop]
  rw [if_pos]
  · simp [List.map_replicate, List.reverse_replicate, List.zip_replicate, u8sub_self,
      List.sum_replicate]
  · refine ⟨by simp [List.map_replicate, List.reverse_replicate], ?_⟩
    rw [hms]
    have h2 : 1 ≤ w / 2 := by omega
    positivity

lemma indicator_map_not_mem (v N : ℕ) (l : List ℕ) (hv : v ∉ l) :
    l.map (fun b => if v = b then N else 0) = List.replicate l.length 0 := by
  induction l with
  | nil => simp
  | cons x xs ih =>
      simp only [List.mem_cons, not_or] at hv
      rw [List.map_cons, List.length_cons, List.replicate_succ, if_neg hv.1, ih hv.2]

lemma indicator_filter_sum (v N : ℕ) (hN : 0 < N) (l : List ℕ) (hnd : l.Nodup) (hv : v ∈ l) :
    ((l.map (fun b => if v = b then N else 0)).filter (fun c => 0 < c) = [N]) ∧
    (l.map (fun b => if v = b then N else 0)).sum = N := by
  induction l with
  | nil => cases hv
  | cons x xs ih =>
      rw [List.nodup_cons] at hnd
      rcases List.mem_cons.mp hv with rfl | hvxs
      · have hxs : v ∉ xs := hnd.1
        rw [List.map_cons, if_pos rfl, indicator_map_not_mem v N xs hxs]
        constructor
        · rw [List.filter_cons_of_pos (by simpa using hN), List.filter_replicate]
          simp
        · rw [List.sum_cons, List.sum_replicate]
          simp
      · have hxv : v ≠ x := by
          rintro rfl
          exact hnd.1 hvxs
        obtain ⟨hf, hs⟩ := ih hnd.2 hvxs
        rw [List.map_cons, if_neg hxv]
        constructor
        · rw [List.filter_cons_of_neg (by simp)]
          exact hf
        · rw [List.sum_cons, hs, Nat.zero_add]

lemma uniform_entropy (h w v : ℕ) (hh : 2 ≤ h) (hw : 2 ≤ w) (hv2 : v ≤ 255) :
    calculate_image_entropy (uniformImage h w v) = 0 := by
  simp only [calculate_image_entropy]
  rw [if_neg (by rw [matSize_uniform]; positivity)]
  have hN : 0 < h * w := by positivity
  have hflat : (uniformImage h w v).flatten = List.replicate (h * w) v :=
    flatten_replicate_replicate h w v
  rw [hflat]
  have hcounts : (List.range 256).map
      (fun b => ((List.replicate (h * w) v).filter (fun x => x = b)).length) =
      (List.range 256).map (fun b => if v = b then h * w else 0) := by
    apply List.map_congr_left
    intro b _
    rw [List.filter_replicate]
    by_cases hvb : v = b
    · rw [if_pos (by simpa using hvb), if_pos hvb, List.length_replicate]
    · rw [if_neg (by simpa using hvb), if_neg hvb]
      rfl
  rw [hcounts]
  obtain ⟨hf, hs⟩ := indicator_filter_sum v (h * w) hN (List.range 256) (List.nodup_range 256)
    (List.mem_range.mpr (by omega))
  rw [hf, hs]
  simp only [List.pure_def, List.bind_eq_flatMap, List.flatMap_cons, List.flatMap_nil,
    List.append_nil, List.map_singleton, List.sum_singleton]
  rw [div_self (by positivity : ((h * w : ℕ) : ℝ) ≠ 0)]
  rw [Real.logb_one, mul_zero, neg_zero]

lemma zipWith_replicate_left {α β γ : Type} (f : α → β → γ) (a : α) (l : List β) :
    List.zipWith f (List.replicate l.length a) l = l.map (f a) := by
  induction l with
  | nil => simp
  | cons x xs ih => simp [List.replicate_succ, ih]

lemma sum_map_mul (v : ℕ) (l : List ℕ) : (l.map (fun b => v * b)).sum = v * l.sum := by
  induction l with
  | nil => simp
  | cons x xs ih => simp [ih, Nat.mul_add]

lemma sum_range_q (n : ℕ) : (((List.range n).sum : ℕ) : ℚ) = n * (n - 1) / 2 := by
  induction n with
  | zero => simp
  | succ m ih =>
      rw [List.range_succ, List.sum_append, List.sum_singleton]
      push_cast
      push_cast at ih
      rw [ih]
      ring

lemma sum_range_cast_q (n : ℕ) :
    ((List.range n).map (Nat.cast : ℕ → ℚ)).sum = n * (n - 1) / 2 := by
  rw [← Nat.cast_list_sum, sum_range_q]

lemma uniform_balance (h w v : ℕ) (hh : 2 ≤ h) (hw : 2 ≤ w) (hv : 0 < v) :
    calculate_visual_balance_score (uniformImage h w v) = 1 := by
  simp only [calculate_visual_balance_score]
  rw [if_neg (by rw [matSize_uniform]; positivity)]
  have hlen : (uniformImage h w v).length = h := by simp [uniformImage]
  have hwid : matWidth (uniformImage h w v) = w := by
    unfold matWidth uniformImage
    cases h with
    | zero => omega
    | succ n => simp [List.replicate_succ]
  have hrows : (uniformImage h w v).map List.sum = List.replicate h (w * v) := by
    simp [uniformImage, List.map_replicate, List.sum_replicate, smul_eq_mul]
  have htot : ((uniformImage h w v).map List.sum).sum = h * (w * v) := by
    rw [hrows]
    simp [List.sum_replicate, smul_eq_mul]
  have hsx : ((uniformImage h w v).map
      (fun row => (row.zipWith (fun x j => x * j) (List.range row.length)).sum)).sum =
      h * (v * (List.range w).sum) := by
    rw [uniformImage, List.map_replicate, List.length_replicate]
    rw [show List.replicate w v = List.replicate (List.range w).length v by
      rw [List.length_range]]
    rw [zipWith_replicate_left, sum_map_mul, List.sum_replicate, smul_eq_mul]
  have hsy : (((uniformImage h w v).map List.sum).zipWith (fun rs i => rs * i)
      (List.range h)).sum = (w * v) * (List.range h).sum := by
    rw [hrows]
    rw [show List.replicate h (w * v) = List.replicate (List.range h).length (w * v) by
      rw [List.length_range]]
    rw [zipWith_replicate_left, sum_map_mul]
  rw [htot, hlen, hwid, hsx]
  rw [hsy]
  rw [if_neg (by positivity : ¬(h * (w * v) = 0))]
  have hwq : (2 : ℚ) ≤ (w : ℚ) := by exact_mod_cast hw
  have hhq : (2 : ℚ) ≤ (h : ℚ) := by exact_mod_cast hh
  have hA : ((h * (v * (List.range w).sum) : ℕ) : ℚ) / ((h * (w * v) : ℕ) : ℚ) -
      ((w : ℚ) - 1) / 2 = 0 := by
    push_cast
    rw [sum_range_cast_q]
    have hh0 : (h : ℚ) ≠ 0 := by positivity
    have hw0 : (w : ℚ) ≠ 0 := by positivity
    have hv0 : (v : ℚ) ≠ 0 := by positivity
    field_simp
    ring
  have hB : (((w * v) * (List.range h).sum : ℕ) : ℚ) / ((h * (w * v) : ℕ) : ℚ) -
      ((h : ℚ) - 1) / 2 = 0 := by
    push_cast
    rw [sum_range_cast_q]
    have hh0 : (h : ℚ) ≠ 0 := by positivity
    have hw0 : (w : ℚ) ≠ 0 := by positivity
    have hv0 : (v : ℚ) ≠ 0 := by positivity
    field_simp
    ring
  rw [hA, hB]
  have hgx : (0 : ℝ) < ((((w : ℚ) - 1) / 2 : ℚ) : ℝ) := by
    push_cast
    have : (2 : ℝ) ≤ (w : ℝ) := by exact_mod_cast hw
    linarith
  have hmaxd : (0 : ℝ) < Real.sqrt (((((w : ℚ) - 1) / 2 : ℚ) : ℝ) ^ 2 +
      ((((h : ℚ) - 1) / 2 : ℚ) : ℝ) ^ 2) := by
    apply Real.sqrt_pos.mpr
    have h1 : (0 : ℝ) < ((((w : ℚ) - 1) / 2 : ℚ) : ℝ) ^ 2 := by positivity
    have h2 : (0 : ℝ) ≤ ((((h : ℚ) - 1) / 2 : ℚ) : ℝ) ^ 2 := sq_nonneg _
    linarith
  rw [if_neg (ne_of_gt hmaxd)]
  norm_num

/-- Claim C3 counterexample: the solid black one-by-two image is a fully
uniform non-empty image, yet its visual balance score is 0.0 (its total
luminance is zero), not 1.0 as the claim requires; its horizontal
symmetry is likewise 0.0 since the top half is empty. -/
theorem uniform_black_1x2_refutes :
    ¬(calculate_fractal_dimension (uniformImage 1 2 0) 128 = 0 ∧
      calculate_image_entropy (uniformImage 1 2 0) = 0 ∧
      calculate_visual_balance_score (uniformImage 1 2 0) = 1 ∧
      symmetry_horizontal (uniformImage 1 2 0) = 1 ∧
      symmetry_vertical (uniformImage 1 2 0) = 1) := by
  intro hcon
  have hb : calculate_visual_balance_score (uniformImage 1 2 0) = 0 := by
    simp only [calculate_visual_balance_score]
    rw [if_neg (by rw [matSize_uniform]; norm_num)]
    rw [if_pos (by decide)]
  rw [hb] at hcon
  exact absurd hcon.2.2.1 (by norm_num)

/-- Claim C3 (amended): a fully uniform image with at least two rows and
two columns and gray value at least 128 (so the box-counting foreground
is empty) yields fractal dimension 0.0, entropy 0.0, visual balance 1.0
and both symmetry scores 1.0; darker uniform images instead binarize to
an all-foreground grid (slope 2.0) and an all-black image has balance
0.0, and single-row or single-column images score symmetry 0.0. -/
theorem uniform_bright_image_metrics (h w v : ℕ) (hh : 2 ≤ h) (hw : 2 ≤ w)
    (hv1 : 128 ≤ v) (hv2 : v ≤ 255) :
    calculate_fractal_dimension (uniformImage h w v) 128 = 0 ∧
    calculate_image_entropy (uniformImage h w v) = 0 ∧
    calculate_visual_balance_score (uniformImage h w v) = 1 ∧
    symmetry_horizontal (uniformImage h w v) = 1 ∧
    symmetry_vertical (uniformImage h w v) = 1 :=
  ⟨uniform_fractal h w v hh hw hv1, uniform_entropy h w v hh hw hv2,
    uniform_balance h w v hh hw (by omega), uniform_symmetry_horizontal h w v hh (by omega),
    uniform_symmetry_vertical h w v (by omega) hw⟩

/-- Witness for the amended claim C3 at the concrete uniform two-by-two
image of gray value 200. -/
theorem uniform_bright_image_metrics_witness :
    ((2 : ℕ) ≤ 2 ∧ (128 : ℕ) ≤ 200 ∧ (200 : ℕ) ≤ 255) ∧
      (calculate_fractal_dimension (uniformImage 2 2 200) 128 = 0 ∧
        calculate_image_entropy (uniformImage 2 2 200) = 0 ∧
        calculate_visual_balance_score (uniformImage 2 2 200) = 1 ∧
        symmetry_horizontal (uniformImage 2 2 200) = 1 ∧
        symmetry_vertical (uniformImage 2 2 200) = 1) :=
  ⟨⟨by norm_num, by norm_num, by norm_num⟩,
    uniform_bright_image_metrics 2 2 200 (by norm_num) (by norm_num) (by norm_num) (by norm_num)⟩

/-- Claim C4: the spec says the symmetry score subtracts the exact
absolute pixel difference.  The code subtracts uint8 values with
wraparound: on the 2 by 1 image with pixels 0 over 255 the wrapped
difference is 1, giving a score of 254 over 255 where the exact absolute
difference 255 would give 0. -/
theorem symmetry_horizontal_wraparound :
    symmetry_horizontal [[0], [255]] = 254/255 ∧
      (254/255 : ℚ) ≠ 1 - 255 / (255 * 1) := by
  constructor
  · norm_num [symmetry_horizontal, matSize, u8sub]
  · norm_num

/-- Claim C7: the mood rules append vibrant twice when the mean color is
blue-dominant with saturation above 0.7; adding minimalist then removes
only the first occurrence, so the final tag set of the uniform deep blue
image (whitespace 100) contains both minimalist and vibrant. -/
theorem mood_tags_minimalist_and_vibrant :
    "minimalist" ∈ analyze_image_mood_tags imgBlue ∧
      "vibrant" ∈ analyze_image_mood_tags imgBlue := by
  norm_num [analyze_image_mood_tags, whitespace_percentage, symmetry_horizontal,
    symmetry_vertical, matSize, matWidth, u8sub, grayOfRGB, rgb_to_hls, pyRound2Q, pyRoundQ,
    Int.fract, round_eq, imgBlue, max_def, min_def, List.replicate]

lemma pyRoundR_intCast (n : ℤ) : pyRoundR (n : ℝ) = n := by
  unfold pyRoundR
  rw [Int.fract_intCast, if_neg (by norm_num), round_intCast]

lemma scale_body (base ws aes fd ent : ℚ) :
    (calculate_golden_ratio_font_scale base ws aes fd ent).body =
      max 1 (pyRoundR (base : ℝ)) := rfl

lemma infer_headingFont (bg : BrandGuidelines) (m t : List String)
    (ws hs vs fd ent bal aes : ℚ) :
    (infer_guidelines bg m t ws hs vs fd ent bal aes).headingFont = bg.headingFont := rfl

lemma infer_bodyFont (bg : BrandGuidelines) (m t : List String)
    (ws hs vs fd ent bal aes : ℚ) :
    (infer_guidelines bg m t ws hs vs fd ent bal aes).bodyFont = bg.bodyFont := rfl

lemma exc_map_scale (x : Except String (Option (String × String)))
    (mk : Option (String × String) → FontResult) (c : FontScale)
    (hmk : ∀ b, (mk b).font_size_scale = c) :
    (x.map mk).map (fun r => r.font_size_scale) = (x.map mk).map (fun _ => c) := by
  cases x <;> simp [Except.map, hmk]

lemma suggest_fonts_explicit_eval :
    suggest_fonts [] bgGeorgiaVerdana = Except.ok
      { heading_font := "Georgia"
        body_font := "Verdana"
        font_size_scale := calculate_golden_ratio_font_scale 16 (1/2) 5 (3/2) 4
        typographic_recommendations :=
          get_typographic_recommendations "Georgia" "Verdana" (1/2) 5 (3/2) 4 [] } := by
  have h3 : avg_whitespace [] = 1/2 := rfl
  have h6 : avg_fractal_dimension [] = 3/2 := rfl
  have h7 : avg_entropy [] = 4 := rfl
  have h9 : avg_aesthetic_score [] = 5 := rfl
  have hbe : bgGeorgiaVerdana.isEmpty = false := by decide
  have hdp : designPrinciplesOf bgGeorgiaVerdana = [] := by decide
  have hH : bgGeorgiaVerdana.headingFont = some "Georgia" := rfl
  have hB : bgGeorgiaVerdana.bodyFont = some "Verdana" := rfl
  have ht1 : truthyStr (some "Georgia") = true := by decide
  have ht2 : truthyStr (some "Verdana") = true := by decide
  simp only [suggest_fonts, h3, h6, h7, h9, hbe, hdp, hH, hB, ht1, ht2, Bool.false_eq_true,
    ite_false, and_self, ite_true, Option.getD_some]

/-- Claim C6 counterexample: with both fonts explicit and an empty
analysis batch the code builds the scale from a base of 16px (body 16),
while the claimed base 16 plus whitespace times 6 plus aesthetic over 10
times 4 evaluates to 21px at the aggregated defaults. -/
theorem font_scale_explicit_differs :
    (suggest_fonts [] bgGeorgiaVerdana).map (fun r => r.font_size_scale) ≠
      Except.ok (calculate_golden_ratio_font_scale (16 + (1/2) * 6 + 5 / 10 * 4)
        (1/2) 5 (3/2) 4) := by
  have hbody16 : (calculate_golden_ratio_font_scale 16 (1/2) 5 (3/2) 4).body = 16 := by
    rw [scale_body, show ((16 : ℚ) : ℝ) = ((16 : ℤ) : ℝ) by norm_num, pyRoundR_intCast]
    norm_num
  have hbody21 : (calculate_golden_ratio_font_scale (16 + (1/2) * 6 + 5 / 10 * 4)
      (1/2) 5 (3/2) 4).body = 21 := by
    rw [scale_body, show ((16 + (1/2) * 6 + 5 / 10 * 4 : ℚ) : ℝ) = ((21 : ℤ) : ℝ) by norm_num,
      pyRoundR_intCast]
    norm_num
  rw [suggest_fonts_explicit_eval]
  intro hcon
  simp only [Except.map] at hcon
  have := congrArg (fun e => match e with
    | Except.ok r => r.body
    | Except.error _ => 0) hcon
  simp only [hbody16, hbody21] at this
  norm_num at this

/-- Claim C6 (amended): the font size scale is computed by
calculate_golden_ratio_font_scale from the aggregated features, with the
base 16 plus whitespace times 6 plus aesthetic over 10 times 4 (adjusted
by 1.05 or else 0.95) only in the scoring mode; when both brand fonts
are dictated the base is the fixed 16px and the features enter only the
ratio adjustment. -/
theorem font_size_scale_formula (results : List AnalysisRecord) (bg : BrandGuidelines) :
    (suggest_fonts results bg).map (fun r => r.font_size_scale) =
      (suggest_fonts results bg).map (fun _ =>
        if truthyStr bg.headingFont = true ∧ truthyStr bg.bodyFont = true then
          calculate_golden_ratio_font_scale 16 (avg_whitespace results)
            (avg_aesthetic_score results) (avg_fractal_dimension results) (avg_entropy results)
        else
          calculate_golden_ratio_font_scale
            (if avg_fractal_dimension results < 1.3 ∨ avg_entropy results < 3 then
              (16 + avg_whitespace results * 6 + avg_aesthetic_score results / 10 * 4) * 1.05
             else if avg_fractal_dimension results > 1.7 ∨ avg_entropy results > 6.5 then
              (16 + avg_whitespace results * 6 + avg_aesthetic_score results / 10 * 4) * 0.95
             else 16 + avg_whitespace results * 6 + avg_aesthetic_score results / 10 * 4)
            (avg_whitespace results) (avg_aesthetic_score results)
            (avg_fractal_dimension results) (avg_entropy results)) := by
  by_cases hbe : bg.isEmpty = true
  · simp only [suggest_fonts, hbe, if_true, infer_headingFont, infer_bodyFont]
    by_cases hT : truthyStr bg.headingFont = true ∧ truthyStr bg.bodyFont = true
    · simp only [if_pos hT, Except.map]
    · simp only [if_neg hT]
      exact exc_map_scale _ _ _ (fun b => rfl)
  · simp only [suggest_fonts, if_neg hbe]
    by_cases hT : truthyStr bg.headingFont = true ∧ truthyStr bg.bodyFont = true
    · simp only [if_pos hT, Except.map]
    · simp only [if_neg hT]
      exact exc_map_scale _ _ _ (fun b => rfl)

/-- Claim C9: on the empty image list extract_palette returns exactly
the default palette of white, light gray and black, no accessibility
suggestions and a zero harmony score with its explanatory string; the
same default record, with the no-valid-pixels explanation, is returned
whenever images were given but no pixels could be extracted. -/
theorem extract_palette_empty_defaults :
    (∀ (km : List (ℤ × ℤ × ℤ) → List (ℚ × ℚ × ℚ) × List ℕ) (style mode : String),
      extract_palette [] km style mode =
        { palette := { primary := "#FFFFFF", secondary := "#CCCCCC", accent := "#000000" }
          accessibility_suggestions := []
          color_harmony_score :=
            { score := 0, explanation := "No images provided for color analysis." } }) ∧
    (∀ (loads : List (Option (List (ℤ × ℤ × ℤ))))
      (km : List (ℤ × ℤ × ℤ) → List (ℚ × ℚ × ℚ) × List ℕ) (style mode : String),
      loads ≠ [] → (loads.filterMap id).flatten = [] →
      extract_palette loads km style mode =
        { palette := { primary := "#FFFFFF", secondary := "#CCCCCC", accent := "#000000" }
          accessibility_suggestions := []
          color_harmony_score :=
            { score := 0, explanation := "No valid pixels extracted for color analysis." } }) := by
  constructor
  · intro km style mode
    simp only [extract_palette]
    rw [if_pos trivial]
  · intro loads km style mode hne hpix
    simp only [extract_palette]
    rw [if_neg hne, if_pos hpix]

/-- The C9 defaults at concrete inputs: the empty path list, and a pair
of loads (one failed, one empty image) yielding no pixels. -/
theorem extract_palette_empty_defaults_witness :
    extract_palette [] (fun _ => ([], [])) "vibrant" "light" =
      { palette := { primary := "#FFFFFF", secondary := "#CCCCCC", accent := "#000000" }
        accessibility_suggestions := []
        color_harmony_score :=
          { score := 0, explanation := "No images provided for color analysis." } } ∧
    extract_palette [none, some []] (fun _ => ([], [])) "vibrant" "light" =
      { palette := { primary := "#FFFFFF", secondary := "#CCCCCC", accent := "#000000" }
        accessibility_suggestions := []
        color_harmony_score :=
          { score := 0, explanation := "No valid pixels extracted for color analysis." } } :=
  ⟨extract_palette_empty_defaults.1 (fun _ => ([], [])) "vibrant" "light",
   extract_palette_empty_defaults.2 [none, some []] (fun _ => ([], [])) "vibrant" "light"
     (by simp) rfl⟩

lemma pyTrunc_mem (q : ℚ) (h0 : 0 ≤ q) (h1 : q ≤ 255) :
    0 ≤ pyTrunc q ∧ pyTrunc q ≤ 255 := by
  unfold pyTrunc
  rw [if_pos h0]
  constructor
  · exact Int.floor_nonneg.mpr h0
  · calc ⌊q⌋ ≤ ⌊(255 : ℚ)⌋ := Int.floor_le_floor h1
      _ = 255 := by norm_num

lemma hlsValue_mem (m1 m2 hue : ℚ) (h1 : 0 ≤ m1) (h2 : m1 ≤ 1) (h3 : 0 ≤ m2) (h4 : m2 ≤ 1) :
    0 ≤ hlsValue m1 m2 hue ∧ hlsValue m1 m2 hue ≤ 1 := by
  simp only [hlsValue]
  have hf0 : 0 ≤ Int.fract hue := Int.fract_nonneg hue
  have hf1 : Int.fract hue < 1 := Int.fract_lt_one hue
  split_ifs with hA hB hC
  · constructor
    · nlinarith [mul_nonneg h1 (by linarith : (0:ℚ) ≤ 1 - Int.fract hue * 6),
        mul_nonneg h3 (by linarith : (0:ℚ) ≤ Int.fract hue * 6)]
    · nlinarith [mul_nonneg (by linarith : (0:ℚ) ≤ 1 - m1) (by linarith : (0:ℚ) ≤ 1 - Int.fract hue * 6),
        mul_nonneg (by linarith : (0:ℚ) ≤ 1 - m2) (by linarith : (0:ℚ) ≤ Int.fract hue * 6)]
  · exact ⟨h3, h4⟩
  · constructor
    · nlinarith [mul_nonneg h1 (by linarith : (0:ℚ) ≤ 1 - (2/3 - Int.fract hue) * 6),
        mul_nonneg h3 (by linarith : (0:ℚ) ≤ (2/3 - Int.fract hue) * 6)]
    · nlinarith [mul_nonneg (by linarith : (0:ℚ) ≤ 1 - m1)
        (by linarith : (0:ℚ) ≤ 1 - (2/3 - Int.fract hue) * 6),
        mul_nonneg (by linarith : (0:ℚ) ≤ 1 - m2)
        (by linarith : (0:ℚ) ≤ (2/3 - Int.fract hue) * 6)]
  · exact ⟨h1, h2⟩

lemma hls_to_rgb_mem (h l s : ℚ) (hl0 : 0 ≤ l) (hl1 : l ≤ 1) (hs0 : 0 ≤ s) (hs1 : s ≤ 1) :
    (0 ≤ (hls_to_rgb h l s).1 ∧ (hls_to_rgb h l s).1 ≤ 1) ∧
    (0 ≤ (hls_to_rgb h l s).2.1 ∧ (hls_to_rgb h l s).2.1 ≤ 1) ∧
    (0 ≤ (hls_to_rgb h l s).2.2 ∧ (hls_to_rgb h l s).2.2 ≤ 1) := by
  simp only [hls_to_rgb]
  split_ifs with hz hll
  · exact ⟨⟨hl0, hl1⟩, ⟨hl0, hl1⟩, ⟨hl0, hl1⟩⟩
  · have hm2a : 0 ≤ l * (1 + s) := by nlinarith
    have hm2b : l * (1 + s) ≤ 1 := by nlinarith
    have hm1a : 0 ≤ 2 * l - l * (1 + s) := by nlinarith
    have hm1b : 2 * l - l * (1 + s) ≤ 1 := by nlinarith
    exact ⟨hlsValue_mem _ _ _ hm1a hm1b hm2a hm2b,
      hlsValue_mem _ _ _ hm1a hm1b hm2a hm2b,
      hlsValue_mem _ _ _ hm1a hm1b hm2a hm2b⟩
  · have hll2 : 1/2 < l := by linarith [not_le.mp hll]
    have hm2a : 0 ≤ l + s - l * s := by nlinarith
    have hm2b : l + s - l * s ≤ 1 := by nlinarith
    have hm1a : 0 ≤ 2 * l - (l + s - l * s) := by nlinarith
    have hm1b : 2 * l - (l + s - l * s) ≤ 1 := by nlinarith
    exact ⟨hlsValue_mem _ _ _ hm1a hm1b hm2a hm2b,
      hlsValue_mem _ _ _ hm1a hm1b hm2a hm2b,
      hlsValue_mem _ _ _ hm1a hm1b hm2a hm2b⟩

lemma rgb_to_hls_s_mem (r g b : ℚ) (hr0 : 0 ≤ r) (hr1 : r ≤ 1) (hg0 : 0 ≤ g) (hg1 : g ≤ 1)
    (hb0 : 0 ≤ b) (hb1 : b ≤ 1) :
    0 ≤ (rgb_to_hls r g b).2.2 ∧ (rgb_to_hls r g b).2.2 ≤ 1 := by
  have hmax1 : max r (max g b) ≤ 1 := by
    simp only [max_le_iff]
    exact ⟨hr1, hg1, hb1⟩
  have hmin0 : 0 ≤ min r (min g b) := by
    simp only [le_min_iff]
    exact ⟨hr0, hg0, hb0⟩
  have hminmax : min r (min g b) ≤ max r (max g b) :=
    le_trans (min_le_left _ _) (le_max_left _ _)
  by_cases heq : min r (min g b) = max r (max g b)
  · simp only [rgb_to_hls]
    rw [if_pos heq]
    norm_num
  · have hlt : min r (min g b) < max r (max g b) := lt_of_le_of_ne hminmax heq
    simp only [rgb_to_hls]
    rw [if_neg heq]
    dsimp only
    by_cases hll : (max r (max g b) + min r (min g b)) / 2 ≤ 1 / 2
    · rw [if_pos hll]
      have hsum : 0 < max r (max g b) + min r (min g b) := by linarith
      constructor
      · exact div_nonneg (by linarith) (le_of_lt hsum)
      · rw [div_le_one hsum]
        linarith
    · rw [if_neg hll]
      have hgt : 1 < max r (max g b) + min r (min g b) := by
        have := not_le.mp hll
        linarith
      have hpos : 0 < 2 - (max r (max g b) + min r (min g b)) := by
        have hminlt : min r (min g b) < 1 := lt_of_lt_of_le hlt hmax1
        linarith
      constructor
      · exact div_nonneg (by linarith) (le_of_lt hpos)
      · rw [div_le_one hpos]
        linarith

lemma sacStep_mem (hue sat L : ℚ) (hs0 : 0 ≤ sat) (hs1 : sat ≤ 1) (hL0 : 0 ≤ L) (hL1 : L ≤ 1) :
    (0 ≤ pyTrunc ((hls_to_rgb hue L sat).1 * 255) ∧
      pyTrunc ((hls_to_rgb hue L sat).1 * 255) ≤ 255) ∧
    (0 ≤ pyTrunc ((hls_to_rgb hue L sat).2.1 * 255) ∧
      pyTrunc ((hls_to_rgb hue L sat).2.1 * 255) ≤ 255) ∧
    (0 ≤ pyTrunc ((hls_to_rgb hue L sat).2.2 * 255) ∧
      pyTrunc ((hls_to_rgb hue L sat).2.2 * 255) ≤ 255) := by
  obtain ⟨⟨a0, a1⟩, ⟨b0, b1⟩, ⟨c0, c1⟩⟩ := hls_to_rgb_mem hue L sat hL0 hL1 hs0 hs1
  exact ⟨pyTrunc_mem _ (by nlinarith) (by nlinarith),
    pyTrunc_mem _ (by nlinarith) (by nlinarith),
    pyTrunc_mem _ (by nlinarith) (by nlinarith)⟩

lemma sacLoop_mem (hue sat : ℚ) (bgc : ℤ × ℤ × ℤ) (target : ℝ)
    (hs0 : 0 ≤ sat) (hs1 : sat ≤ 1) :
    ∀ (fuel : ℕ) (lightness : ℚ) (current : ℤ × ℤ × ℤ),
      0 ≤ current.1 → current.1 ≤ 255 → 0 ≤ current.2.1 → current.2.1 ≤ 255 →
      0 ≤ current.2.2 → current.2.2 ≤ 255 →
      (0 ≤ (sacLoop hue sat bgc target fuel lightness current).1 ∧
        (sacLoop hue sat bgc target fuel lightness current).1 ≤ 255) ∧
      (0 ≤ (sacLoop hue sat bgc target fuel lightness current).2.1 ∧
        (sacLoop hue sat bgc target fuel lightness current).2.1 ≤ 255) ∧
      (0 ≤ (sacLoop hue sat bgc target fuel lightness current).2.2 ∧
        (sacLoop hue sat bgc target fuel lightness current).2.2 ≤ 255) := by
  intro fuel
  induction fuel with
  | zero =>
    intro l cur h1 h2 h3 h4 h5 h6
    simp only [sacLoop]
    exact ⟨⟨h1, h2⟩, ⟨h3, h4⟩, ⟨h5, h6⟩⟩
  | succ n ih =>
    intro l cur h1 h2 h3 h4 h5 h6
    simp only [sacLoop]
    by_cases hc : get_contrast_ratio cur bgc ≥ target
    · rw [if_pos hc]
      exact ⟨⟨h1, h2⟩, ⟨h3, h4⟩, ⟨h5, h6⟩⟩
    · rw [if_neg hc]
      refine ih _ _ ?_ ?_ ?_ ?_ ?_ ?_
      · exact (sacStep_mem hue sat _ hs0 hs1 (le_max_left _ _)
          (max_le zero_le_one (min_le_left _ _))).1.1
      · exact (sacStep_mem hue sat _ hs0 hs1 (le_max_left _ _)
          (max_le zero_le_one (min_le_left _ _))).1.2
      · exact (sacStep_mem hue sat _ hs0 hs1 (le_max_left _ _)
          (max_le zero_le_one (min_le_left _ _))).2.1.1
      · exact (sacStep_mem hue sat _ hs0 hs1 (le_max_left _ _)
          (max_le zero_le_one (min_le_left _ _))).2.1.2
      · exact (sacStep_mem hue sat _ hs0 hs1 (le_max_left _ _)
          (max_le zero_le_one (min_le_left _ _))).2.2.1
      · exact (sacStep_mem hue sat _ hs0 hs1 (le_max_left _ _)
          (max_le zero_le_one (min_le_left _ _))).2.2.2

/-- Claim C10: suggest_accessible_color, whose adjustment loop is bounded
by the twenty attempts built into its definition, maps any valid RGB pair
and any target contrast to a triple each of whose channels lies between
0 and 255: the loop either returns the original color or a color rebuilt
from clamped lightness and the original saturation, whose channels are
truncations of values in the unit interval scaled by 255. -/
theorem suggest_accessible_color_bounds (original background : ℤ × ℤ × ℤ) (target : ℝ)
    (h1 : 0 ≤ original.1) (h2 : original.1 ≤ 255)
    (h3 : 0 ≤ original.2.1) (h4 : original.2.1 ≤ 255)
    (h5 : 0 ≤ original.2.2) (h6 : original.2.2 ≤ 255) :
    (0 ≤ (suggest_accessible_color original background target).1 ∧
      (suggest_accessible_color original background target).1 ≤ 255) ∧
    (0 ≤ (suggest_accessible_color original background target).2.1 ∧
      (suggest_accessible_color original background target).2.1 ≤ 255) ∧
    (0 ≤ (suggest_accessible_color original background target).2.2 ∧
      (suggest_accessible_color original background target).2.2 ≤ 255) := by
  have c255 : ((255 : ℤ) : ℚ) = 255 := by norm_num
  have hs := rgb_to_hls_s_mem ((original.1 : ℚ) / 255) ((original.2.1 : ℚ) / 255)
    ((original.2.2 : ℚ) / 255)
    (div_nonneg (by exact_mod_cast h1) (by norm_num))
    ((div_le_one (by norm_num)).mpr (by exact_mod_cast h2))
    (div_nonneg (by exact_mod_cast h3) (by norm_num))
    ((div_le_one (by norm_num)).mpr (by exact_mod_cast h4))
    (div_nonneg (by exact_mod_cast h5) (by norm_num))
    ((div_le_one (by norm_num)).mpr (by exact_mod_cast h6))
  simp only [suggest_accessible_color]
  exact sacLoop_mem _ _ _ _ hs.1 hs.2 20 _ original h1 h2 h3 h4 h5 h6

/-- The C10 bound at a concrete call: black text against a white
background at the AA target ratio. -/
theorem suggest_accessible_color_bounds_witness :
    (0 ≤ (suggest_accessible_color (0, 0, 0) (255, 255, 255) 4.5).1 ∧
      (suggest_accessible_color (0, 0, 0) (255, 255, 255) 4.5).1 ≤ 255) ∧
    (0 ≤ (suggest_accessible_color (0, 0, 0) (255, 255, 255) 4.5).2.1 ∧
      (suggest_accessible_color (0, 0, 0) (255, 255, 255) 4.5).2.1 ≤ 255) ∧
    (0 ≤ (suggest_accessible_color (0, 0, 0) (255, 255, 255) 4.5).2.2 ∧
      (suggest_accessible_color (0, 0, 0) (255, 255, 255) 4.5).2.2 ≤ 255) :=
  suggest_accessible_color_bounds (0, 0, 0) (255, 255, 255) 4.5
    (by decide) (by decide) (by decide) (by decide) (by decide) (by decide)

end STE
